import Mathlib

/-!
# cmmr-phase2-quickstart: command runner over the instance-admin client

A shallow embedding of `cmmr-phase2-quickstart.go`.

* The remote service and the vendor client library are not part of the program;
  they are taken as a parameter `External σ`: a state machine over an arbitrary
  state type `σ`, one transition per client method.  Every Go result pair
  `(*T, error)` is kept as a pair `Option T × Option GoError`, since both
  components can be nil independently as far as the Go types go.
* The program state is a `World σ`: the remote state, the trace of calls made
  on the administrative client (each with its request and its result), the
  text written to the writer `w`, the text written to standard error and the
  text that `flag.Usage` currently prints.
* A Go function call ends in an `Outcome`: it returns, it panics, it calls
  `os.Exit`, or (for the unbounded `for` loop) the fuel of the model runs out.
-/

namespace Quickstart

/-! ## Data model -/

/-- Go `error` values. `Done` is the sentinel `iterator.Done`; it is compared by
identity, so no other error equals it, whatever its message. -/
inductive GoError where
  | Done
  | other (msg : String)
  deriving DecidableEq, Repr

/-- Method `Error()` of an error value; `%v` prints an error through it. -/
def GoError.Error : GoError → String
  | .Done => "no more items in iterator"
  | .other msg => msg

/-- A Go `map[string]string` that is not nil, as an association list read
through `GoMap.get` and written through `GoMap.set`. -/
abbrev GoMap := List (String × String)

/-- Map read `m[k]` (with the comma-ok flag folded into the option). -/
def GoMap.get (m : GoMap) (k : String) : Option String :=
  List.lookup k m

/-- Map write `m[k] = v` on a non-nil map. -/
def GoMap.set (m : GoMap) (k v : String) : GoMap :=
  (k, v) :: m.filter (fun p => !(p.1 == k))

/-- Message `instancepb.ReplicaInfo`. -/
structure ReplicaInfo where
  Location : String
  ReplicaType : Nat
  DefaultLeaderLocation : Bool
  deriving DecidableEq, Repr

/-- Enum `instancepb.InstanceConfig_Type`. -/
inductive InstanceConfig_Type where
  | TYPE_UNSPECIFIED
  | GOOGLE_MANAGED
  | USER_MANAGED
  deriving DecidableEq, Repr

/-- Message `instancepb.InstanceConfig`. `Labels` is `none` for a nil map. -/
structure InstanceConfig where
  Name : String
  DisplayName : String
  ConfigType : InstanceConfig_Type
  Replicas : List ReplicaInfo
  OptionalReplicas : List ReplicaInfo
  BaseConfig : String
  Labels : Option GoMap
  Etag : String
  LeaderOptions : List String
  Reconciling : Bool
  State : Nat
  deriving DecidableEq, Repr

/-- Message `longrunningpb.Operation`, the two fields the program reads. -/
structure Operation where
  Name : String
  Done : Bool
  deriving DecidableEq, Repr

/-- Handle of a long-running operation returned by a mutating call. -/
structure OperationHandle where
  id : Nat
  deriving DecidableEq, Repr

structure GetInstanceConfigRequest where
  Name : String
  deriving DecidableEq, Repr

structure CreateInstanceConfigRequest where
  Parent : String
  InstanceConfigId : String
  InstanceConfig : InstanceConfig
  deriving DecidableEq, Repr

structure UpdateInstanceConfigRequest where
  InstanceConfig : InstanceConfig
  UpdateMask : List String
  deriving DecidableEq, Repr

structure DeleteInstanceConfigRequest where
  Name : String
  deriving DecidableEq, Repr

structure ListInstanceConfigOperationsRequest where
  Parent : String
  Filter : String
  deriving DecidableEq, Repr

/-- One call on the administrative client (or on an object it handed out),
with the request sent and the result received. -/
inductive Call where
  | GetInstanceConfig (req : GetInstanceConfigRequest)
      (resp : Option InstanceConfig) (err : Option GoError)
  | CreateInstanceConfig (req : CreateInstanceConfigRequest)
      (op : Option OperationHandle) (err : Option GoError)
  | Wait (op : OperationHandle) (resp : Option InstanceConfig) (err : Option GoError)
  | UpdateInstanceConfig (req : UpdateInstanceConfigRequest)
      (op : Option OperationHandle) (err : Option GoError)
  | DeleteInstanceConfig (req : DeleteInstanceConfigRequest) (err : Option GoError)
  | ListInstanceConfigOperations (req : ListInstanceConfigOperationsRequest)
  | Next (op : Option Operation) (err : Option GoError)
  | Close (err : Option GoError)
  deriving DecidableEq, Repr

/-- The error a call came back with (`none` for nil, and for the call that
only builds the iterator). -/
def Call.err : Call → Option GoError
  | .GetInstanceConfig _ _ e => e
  | .CreateInstanceConfig _ _ e => e
  | .Wait _ _ e => e
  | .UpdateInstanceConfig _ _ e => e
  | .DeleteInstanceConfig _ e => e
  | .ListInstanceConfigOperations _ => none
  | .Next _ e => e
  | .Close e => e

/-- Whether the call is `Close`. -/
def Call.isClose : Call → Bool
  | .Close _ => true
  | _ => false

/-- The vendor library and the remote service behind it: a state machine over
`σ`, one transition per method the program calls, together with the two pure
library functions whose text ends up in the output. -/
structure External (σ : Type) where
  NewInstanceAdminClient : σ → Option GoError × σ
  GetInstanceConfig : GetInstanceConfigRequest → σ →
    (Option InstanceConfig × Option GoError) × σ
  CreateInstanceConfig : CreateInstanceConfigRequest → σ →
    (Option OperationHandle × Option GoError) × σ
  Wait : OperationHandle → σ → (Option InstanceConfig × Option GoError) × σ
  UpdateInstanceConfig : UpdateInstanceConfigRequest → σ →
    (Option OperationHandle × Option GoError) × σ
  DeleteInstanceConfig : DeleteInstanceConfigRequest → σ → Option GoError × σ
  ListInstanceConfigOperations : ListInstanceConfigOperationsRequest → σ → σ
  Next : σ → (Option Operation × Option GoError) × σ
  Close : σ → Option GoError × σ
  /-- The bytes of `json.MarshalIndent(config, "", "\t")` as printed by `%s`
  (its error is dropped by the program). -/
  MarshalIndent : Option InstanceConfig → String
  /-- The header the standard logger puts before a message. -/
  logHeader : String

/-- Program state. -/
structure World (σ : Type) where
  remote : σ
  trace : List Call
  out : List String
  stderr : List String
  flagUsage : String
  deriving DecidableEq

/-- Value carried by a panic. -/
inductive PanicValue where
  | error (err : GoError)
  | nilMapAssignment
  | nilDereference
  deriving DecidableEq, Repr

/-- How a call of a Go function ends. -/
inductive Outcome (α : Type) where
  | ret (a : α)
  | panic (v : PanicValue)
  | exit (code : Nat)
  | diverge
  deriving DecidableEq, Repr

/-! ## Package-level variables -/

def projectPath : String := "projects/my-project"

def baseConfigName : String := "base-config-with-optional-replicas"

def withName : String := "custom-quickstart-go"

def withDisplayName : String := "Custom quickstart go"

def withLabels : Option GoMap := some [("cmmr_phase2_quickstart_go", "true")]

/-- Type `command`. The context carries no data the program reads; the extra
argument is the fuel of the model. -/
abbrev command (σ : Type) :=
  External σ → Nat → World σ → Outcome (Option GoError) × World σ

/-! ## Operations -/

/-- Records a call in the trace and installs the new remote state. -/
def World.record {σ : Type} (w : World σ) (s : σ) (c : Call) : World σ :=
  { w with remote := s, trace := w.trace ++ [c] }

/-- Writes to the writer `w` (`fmt.Fprintf(w, ...)`). -/
def World.fprintf {σ : Type} (w : World σ) (text : String) : World σ :=
  { w with out := w.out ++ [text] }

/-- The request `getInstanceConfig` sends for a configuration name. -/
def getRequest (name : String) : GetInstanceConfigRequest :=
  { Name := projectPath ++ "/instanceConfigs/" ++ name }

/-- Function `getInstanceConfig`. -/
def getInstanceConfig {σ : Type} (x : External σ) (name : String) (w : World σ) :
    (Option InstanceConfig × Option GoError) × World σ :=
  let req := getRequest name
  let r := x.GetInstanceConfig req w.remote
  let w1 := w.record r.2 (.GetInstanceConfig req r.1.1 r.1.2)
  match r.1.2 with
  | some err => ((none, some err), w1)
  | none => ((r.1.1, none), w1)

/-- The request `createInstanceConfig` builds from the base configuration. -/
def createRequest (baseConfig : InstanceConfig) : CreateInstanceConfigRequest :=
  { Parent := projectPath
    InstanceConfigId := withName
    InstanceConfig :=
      { Name := projectPath ++ "/instanceConfigs/" ++ withName
        DisplayName := withDisplayName
        ConfigType := .USER_MANAGED
        Replicas := baseConfig.Replicas ++ baseConfig.OptionalReplicas
        OptionalReplicas := []
        BaseConfig := projectPath ++ "/instanceConfigs/" ++ baseConfigName
        Labels := withLabels
        Etag := ""
        LeaderOptions := []
        Reconciling := false
        State := 0 } }

/-- Function `createInstanceConfig`. -/
def createInstanceConfig {σ : Type} : command σ := fun x _ w =>
  match getInstanceConfig x baseConfigName w with
  | ((_, some err), w1) => (.ret (some err), w1)
  | ((none, none), w1) => (.panic .nilDereference, w1)
  | ((some baseConfig, none), w1) =>
    let req := createRequest baseConfig
    let r := x.CreateInstanceConfig req w1.remote
    let w2 := w1.record r.2 (.CreateInstanceConfig req r.1.1 r.1.2)
    match r.1 with
    | (_, some err) => (.ret (some err), w2)
    | (none, none) => (.panic .nilDereference, w2)
    | (some op, none) =>
      let rw := x.Wait op w2.remote
      let w3 := w2.record rw.2 (.Wait op rw.1.1 rw.1.2)
      match rw.1.2 with
      | some err => (.ret (some err), w3)
      | none =>
        match getInstanceConfig x withName w3 with
        | ((_, some err), w4) => (.ret (some err), w4)
        | ((config, none), w4) =>
          let configStr := x.MarshalIndent config
          (.ret none, w4.fprintf ("Created instance config [" ++ configStr ++ "]\n"))

/-- The request `updateInstanceConfig` builds from the fetched configuration,
after the two assignments to its fields. -/
def updateRequest (config : InstanceConfig) (labels : GoMap) : UpdateInstanceConfigRequest :=
  { InstanceConfig :=
      { config with
        DisplayName := "Updated custom quickstart go"
        Labels := some (labels.set "updated" "true") }
    UpdateMask := ["display_name", "labels"] }

/-- Function `updateInstanceConfig`. The result of the update call is
discarded, as in the source. -/
def updateInstanceConfig {σ : Type} : command σ := fun x _ w =>
  match getInstanceConfig x withName w with
  | ((_, some err), w1) => (.ret (some err), w1)
  | ((none, none), w1) => (.panic .nilDereference, w1)
  | ((some config, none), w1) =>
    match config.Labels with
    | none => (.panic .nilMapAssignment, w1)
    | some labels =>
      let req := updateRequest config labels
      let r := x.UpdateInstanceConfig req w1.remote
      let w2 := w1.record r.2 (.UpdateInstanceConfig req r.1.1 r.1.2)
      match getInstanceConfig x withName w2 with
      | ((_, some err), w3) => (.ret (some err), w3)
      | ((conf, none), w3) =>
        let configStr := x.MarshalIndent conf
        (.ret none, w3.fprintf ("Updated instance config [" ++ configStr ++ "]\n"))

/-- The request of `deleteInstanceConfig`. -/
def deleteRequest : DeleteInstanceConfigRequest :=
  { Name := projectPath ++ "/instanceConfigs/" ++ withName }

/-- Function `deleteInstanceConfig`. -/
def deleteInstanceConfig {σ : Type} : command σ := fun x _ w =>
  let req := deleteRequest
  let r := x.DeleteInstanceConfig req w.remote
  let w1 := w.record r.2 (.DeleteInstanceConfig req r.1)
  match r.1 with
  | some err => (.ret (some err), w1)
  | none => (.ret none, w1.fprintf ("Deleted instance config [" ++ withName ++ "]\n"))

/-- Verb `%v` applied to a bool. -/
def fmtBool (b : Bool) : String := if b then "true" else "false"

/-- The line `listInstanceConfigOperations` prints for one record. -/
def operationLine (op : Operation) : String :=
  "Instance config operation for [" ++ op.Name ++ "] has status [" ++ fmtBool op.Done ++ "]\n"

/-- The `for` loop of `listInstanceConfigOperations`; one unit of fuel per
call of `iter.Next()`. -/
def listLoop {σ : Type} (x : External σ) : Nat → World σ → Outcome (Option GoError) × World σ
  | 0, w => (.diverge, w)
  | fuel + 1, w =>
    let r := x.Next w.remote
    let w1 := w.record r.2 (.Next r.1.1 r.1.2)
    match r.1 with
    | (_, some .Done) => (.ret none, w1)
    | (_, some err) => (.panic (.error err), w1)
    | (none, none) => (.panic .nilDereference, w1)
    | (some op, none) => listLoop x fuel (w1.fprintf (operationLine op))

/-- The request of `listInstanceConfigOperations`. -/
def listRequest : ListInstanceConfigOperationsRequest :=
  { Parent := projectPath
    Filter := "(metadata.@type=type.googleapis.com/google.spanner.admin.instance.v1.CreateInstanceConfigMetadata) AND\n\t\t    (metadata.instance_config.name:custom-quickstart-go)" }

/-- Function `listInstanceConfigOperations`. -/
def listInstanceConfigOperations {σ : Type} : command σ := fun x fuel w =>
  let s := x.ListInstanceConfigOperations listRequest w.remote
  let w1 := w.record s (.ListInstanceConfigOperations listRequest)
  listLoop x fuel w1

/-- The table `commands`. -/
def commands (σ : Type) : List (String × command σ) :=
  [ ("create_instance_config", createInstanceConfig),
    ("update_instance_config", updateInstanceConfig),
    ("delete_instance_config", deleteInstanceConfig),
    ("list_instance_config_operations", listInstanceConfigOperations) ]

/-- Call `flag.Usage()`: the current usage text goes to standard error. -/
def World.usage {σ : Type} (w : World σ) : World σ :=
  { w with stderr := w.stderr ++ [w.flagUsage] }

/-- Function `createClients`; `log.Fatal` prints and exits with code 1. -/
def createClients {σ : Type} (x : External σ) (w : World σ) : Outcome Unit × World σ :=
  let r := x.NewInstanceAdminClient w.remote
  let w1 := { w with remote := r.2 }
  match r.1 with
  | some err => (.exit 1, { w1 with stderr := w1.stderr ++ [x.logHeader ++ err.Error ++ "\n"] })
  | none => (.ret (), w1)

/-- Function `run`. A missing key of the map gives the nil function. -/
def run {σ : Type} (x : External σ) (fuel : Nat) (cmd : String) (w : World σ) :
    Outcome (Option GoError) × World σ :=
  match (commands σ).lookup cmd with
  | none => (.exit 2, w.usage)
  | some cmdFn =>
    match cmdFn x fuel w with
    | (.ret (some err), w1) =>
      (.ret (some err), w1.fprintf (cmd ++ " failed with " ++ err.Error))
    | r => r

/-- The text `main` installs as `flag.Usage`. -/
def usageText : String :=
  "Usage: cmmr-phase2-quickstart <command>\n\tCommand can be one of: create_instance_config, update_instance_config, delete_instance_config, list_instance_config_operations\n\nExamples:\n\tcmmr-phase2-quickstart create_instance_config\n\tcmmr-phase2-quickstart update_instance_config\n\tcmmr-phase2-quickstart delete_instance_config\n\tcmmr-phase2-quickstart list_instance_config_operations\n\n"

/-- The deferred calls of `main`, last registered first: `adminClient.Close()`
(its result dropped), then `cancel()`, which has no effect the model records. -/
def runDeferred {σ : Type} (x : External σ) (w : World σ) : World σ :=
  let r := x.Close w.remote
  w.record r.2 (.Close r.1)

/-- How `flag.Parse()` ends on the command line of this program. -/
inductive ParseResult where
  /-- Parsing returned; these are the positional arguments `flag.Args()`. -/
  | positional (args : List String)
  /-- The help flag was met: `flag.ErrHelp`. -/
  | help
  /-- Any other parse error, with the text of the error. -/
  | failure (message : String)
  deriving DecidableEq, Repr

/-- The name of a flag argument without its value: the text is cut at the
first `=` that is not its first character. -/
def flagName : List Char → List Char
  | [] => []
  | c :: cs => c :: cs.takeWhile (fun d => d != '=')

/-- Function `flag.Parse()` of the standard library on `os.Args[1:]`, for a
flag set in which no flag is defined (the program defines none), so that the
first argument of flag shape ends the parsing with an error. An argument
shorter than two characters or not starting with `-` is the first positional
argument; `--` ends the flags; a name that is empty or starts with `-` or `=`
is bad syntax; the names `help` and `h` give the help error; every other name
is a flag that is not defined. -/
def flagParse : List String → ParseResult
  | [] => .positional []
  | s :: rest =>
    match s.data with
    | '-' :: c :: cs =>
      if c = '-' ∧ cs = [] then .positional rest
      else
        let name := if c = '-' then cs else c :: cs
        match name with
        | [] => .failure ("bad flag syntax: " ++ s)
        | d :: _ =>
          if d = '-' ∨ d = '=' then .failure ("bad flag syntax: " ++ s)
          else if flagName name = "help".data ∨ flagName name = "h".data then .help
          else .failure ("flag provided but not defined: -" ++ String.mk (flagName name))
    | _ => .positional (s :: rest)

/-- Function `main` on the command line `osArgs` (`os.Args[1:]`). The result is
the exit code of the process (`none` when the fuel ran out) and the final
state. `flag.Parse()` works on a flag set that exits on error: on the help
error it has printed the usage text and exits with code 0, on any other error
it has printed the error and the usage text and exits with code 2. `os.Exit`
ends the process without running deferred calls; a return from `main` and a
panic both run them, and a panic that is not recovered ends the process with
code 2. -/
def main {σ : Type} (x : External σ) (fuel : Nat) (osArgs : List String) (w0 : World σ) :
    Option Nat × World σ :=
  let w := { w0 with flagUsage := usageText }
  match flagParse osArgs with
  | .help => (some 0, w.usage)
  | .failure message =>
    (some 2, World.usage { w with stderr := w.stderr ++ [message ++ "\n"] })
  | .positional flagArgs =>
    match flagArgs with
    | [] => (some 2, w.usage)
    | cmd :: _ =>
      match createClients x w with
      | (.exit code, w1) => (some code, w1)
      | (.panic _, w1) => (some 2, w1)
      | (.diverge, w1) => (none, w1)
      | (.ret (), w1) =>
        match run x fuel cmd w1 with
        | (.ret (some _), w2) => (some 1, w2)
        | (.ret none, w2) => (some 0, runDeferred x w2)
        | (.exit code, w2) => (some code, w2)
        | (.panic _, w2) => (some 2, runDeferred x w2)
        | (.diverge, w2) => (none, w2)

/-! ## A concrete service for evaluation -/

/-- State of the scripted service: what the next fetches, the mutating calls
and the iterator will answer. -/
structure Script where
  gets : List (Option InstanceConfig × Option GoError)
  create : Option OperationHandle × Option GoError
  wait : Option InstanceConfig × Option GoError
  update : Option OperationHandle × Option GoError
  delete : Option GoError
  nexts : List (Option Operation × Option GoError)
  newClient : Option GoError
  deriving DecidableEq, Repr

/-- A service that answers from its script; an exhausted list answers with an
error (fetch) or with the sentinel (iterator). -/
def scripted : External Script where
  NewInstanceAdminClient := fun s => (s.newClient, s)
  GetInstanceConfig := fun _ s =>
    match s.gets with
    | [] => ((none, some (.other "not found")), s)
    | r :: rest => (r, { s with gets := rest })
  CreateInstanceConfig := fun _ s => (s.create, s)
  Wait := fun _ s => (s.wait, s)
  UpdateInstanceConfig := fun _ s => (s.update, s)
  DeleteInstanceConfig := fun _ s => (s.delete, s)
  ListInstanceConfigOperations := fun _ s => s
  Next := fun s =>
    match s.nexts with
    | [] => ((none, some .Done), s)
    | r :: rest => (r, { s with nexts := rest })
  Close := fun s => (none, s)
  MarshalIndent := fun c =>
    match c with
    | none => "null"
    | some c => c.Name
  logHeader := ""

/-- Initial state of the process over a given remote state. -/
def World.init {σ : Type} (s : σ) : World σ :=
  { remote := s, trace := [], out := [], stderr := [], flagUsage := "" }

/-! ## Vocabulary of the properties -/

/-- Names of the commands in the table, in table order. -/
def commandNames : List String :=
  (commands Unit).map Prod.fst

/-- The part of a resource name after its last `/`. -/
def lastSegment (s : String) : String :=
  String.mk (s.data.foldl (fun acc c => if c = '/' then [] else acc ++ [c]) [])

/-- Whether the call is `CreateInstanceConfig`. -/
def Call.isCreate : Call → Bool
  | .CreateInstanceConfig _ _ _ => true
  | _ => false

/-- From remote state `s`, the iterator hands out exactly the records `ops`,
one per call of `Next`, and then the sentinel `Done`. -/
def IterYields {σ : Type} (x : External σ) : List Operation → σ → Prop
  | [], s => (x.Next s).1.2 = some .Done
  | op :: ops, s => (x.Next s).1 = (some op, none) ∧ IterYields x ops (x.Next s).2

/-- From remote state `s`, the iterator hands out the records `ops`, one per
call of `Next`, and then fails with the error `e`. -/
def IterFails {σ : Type} (x : External σ) (e : GoError) : List Operation → σ → Prop
  | [], s => (x.Next s).1.2 = some e
  | op :: ops, s => (x.Next s).1 = (some op, none) ∧ IterFails x e ops (x.Next s).2

/-- Whether the iterator hands out `ops` and then `Done` can be computed. -/
def IterYields.decidable {σ : Type} (x : External σ) :
    (ops : List Operation) → (s : σ) → Decidable (IterYields x ops s)
  | [], s => inferInstanceAs (Decidable ((x.Next s).1.2 = some .Done))
  | op :: ops, s =>
    @instDecidableAnd _ _ (inferInstanceAs (Decidable ((x.Next s).1 = (some op, none))))
      (IterYields.decidable x ops (x.Next s).2)

instance {σ : Type} (x : External σ) (ops : List Operation) (s : σ) :
    Decidable (IterYields x ops s) :=
  IterYields.decidable x ops s

/-- Whether the iterator hands out `ops` and then fails with `e` can be
computed. -/
def IterFails.decidable {σ : Type} (x : External σ) (e : GoError) :
    (ops : List Operation) → (s : σ) → Decidable (IterFails x e ops s)
  | [], s => inferInstanceAs (Decidable ((x.Next s).1.2 = some e))
  | op :: ops, s =>
    @instDecidableAnd _ _ (inferInstanceAs (Decidable ((x.Next s).1 = (some op, none))))
      (IterFails.decidable x e ops (x.Next s).2)

instance {σ : Type} (x : External σ) (e : GoError) (ops : List Operation) (s : σ) :
    Decidable (IterFails x e ops s) :=
  IterFails.decidable x e ops s

/-- The result of the first call of `createInstanceConfig` from state `w`:
the fetch of the base configuration. -/
def baseFetch {σ : Type} (x : External σ) (w : World σ) :
    (Option InstanceConfig × Option GoError) × σ :=
  x.GetInstanceConfig (getRequest baseConfigName) w.remote

/-- The result of the create call that `createInstanceConfig` issues after it
fetched `base`. -/
def createResult {σ : Type} (x : External σ) (w : World σ) (base : InstanceConfig) :
    (Option OperationHandle × Option GoError) × σ :=
  x.CreateInstanceConfig (createRequest base) (baseFetch x w).2

/-- The result of the wait on the operation `op` the create call returned. -/
def waitResult {σ : Type} (x : External σ) (w : World σ) (base : InstanceConfig)
    (op : OperationHandle) : (Option InstanceConfig × Option GoError) × σ :=
  x.Wait op (createResult x w base).2

/-- The result of the last call of `createInstanceConfig`: the fetch of the
created configuration. -/
def createdFetch {σ : Type} (x : External σ) (w : World σ) (base : InstanceConfig)
    (op : OperationHandle) : (Option InstanceConfig × Option GoError) × σ :=
  x.GetInstanceConfig (getRequest withName) (waitResult x w base op).2

/-- The result of the call of `deleteInstanceConfig` from state `w`. -/
def deleteResult {σ : Type} (x : External σ) (w : World σ) : Option GoError × σ :=
  x.DeleteInstanceConfig deleteRequest w.remote

/-- The result of the first call of `updateInstanceConfig` from state `w`: the
fetch of the custom configuration. -/
def customFetch {σ : Type} (x : External σ) (w : World σ) :
    (Option InstanceConfig × Option GoError) × σ :=
  x.GetInstanceConfig (getRequest withName) w.remote

/-- The result of the update call that `updateInstanceConfig` issues from
state `w` after it fetched `config` with the label map `labels`. -/
def updateResult {σ : Type} (x : External σ) (w : World σ) (config : InstanceConfig)
    (labels : GoMap) : (Option OperationHandle × Option GoError) × σ :=
  x.UpdateInstanceConfig (updateRequest config labels)
    (x.GetInstanceConfig (getRequest withName) w.remote).2

/-- The result of the second fetch of `updateInstanceConfig`, made in the
remote state the update call left. -/
def refetchResult {σ : Type} (x : External σ) (w : World σ) (config : InstanceConfig)
    (labels : GoMap) : (Option InstanceConfig × Option GoError) × σ :=
  x.GetInstanceConfig (getRequest withName) (updateResult x w config labels).2

/-- The state in which `main` calls `run`: the usage text installed and the
client constructed. -/
def clientWorld {σ : Type} (x : External σ) (w0 : World σ) : World σ :=
  { w0 with flagUsage := usageText, remote := (x.NewInstanceAdminClient w0.remote).2 }

/-- A base configuration with one required and one optional replica. -/
def sampleBase : InstanceConfig :=
  { Name := "projects/my-project/instanceConfigs/base-config-with-optional-replicas"
    DisplayName := "Base"
    ConfigType := .GOOGLE_MANAGED
    Replicas := [{ Location := "us-east1", ReplicaType := 1, DefaultLeaderLocation := true }]
    OptionalReplicas :=
      [{ Location := "europe-west1", ReplicaType := 2, DefaultLeaderLocation := false }]
    BaseConfig := ""
    Labels := none
    Etag := "e0"
    LeaderOptions := ["us-east1"]
    Reconciling := false
    State := 2 }

/-- The custom configuration as the service stores it after a create. -/
def sampleCustom : InstanceConfig :=
  { Name := "projects/my-project/instanceConfigs/custom-quickstart-go"
    DisplayName := "Custom quickstart go"
    ConfigType := .USER_MANAGED
    Replicas :=
      [{ Location := "us-east1", ReplicaType := 1, DefaultLeaderLocation := true },
       { Location := "europe-west1", ReplicaType := 2, DefaultLeaderLocation := false }]
    OptionalReplicas := []
    BaseConfig := "projects/my-project/instanceConfigs/base-config-with-optional-replicas"
    Labels := some [("cmmr_phase2_quickstart_go", "true")]
    Etag := "e1"
    LeaderOptions := ["us-east1"]
    Reconciling := false
    State := 2 }

/-- A script in which every call succeeds and the listing has two records. -/
def sampleScript : Script :=
  { gets := [(some sampleCustom, none), (some sampleCustom, none)]
    create := (some { id := 7 }, none)
    wait := (some sampleCustom, none)
    update := (some { id := 8 }, none)
    delete := none
    nexts := [(some { Name := "operations/a", Done := true }, none),
              (some { Name := "operations/b", Done := false }, none)]
    newClient := none }

/-- The final state of an operation: new remote state, calls appended to the
trace, lines appended to the writer; the rest is untouched. -/
def World.after {σ : Type} (w : World σ) (s : σ) (calls : List Call) (lines : List String) :
    World σ :=
  { w with remote := s, trace := w.trace ++ calls, out := w.out ++ lines }

/-! ## Map lemmas -/

theorem lookup_filter_ne (m : GoMap) (k k2 : String) (h : k2 ≠ k) :
    List.lookup k2 (m.filter (fun p => !(p.1 == k))) = List.lookup k2 m := by
  induction m with
  | nil => rfl
  | cons p m ih =>
    obtain ⟨a, b⟩ := p
    by_cases hp : a = k
    · subst hp
      have h3 : (k2 == a) = false := by simpa using h
      simp [List.filter_cons, List.lookup_cons, h3, ih]
    · by_cases h2 : k2 = a
      · simp [List.filter_cons, hp, List.lookup_cons, h2]
      · have h3 : (k2 == a) = false := by simpa using h2
        simp [List.filter_cons, hp, List.lookup_cons, h3, ih]

theorem GoMap.get_set (m : GoMap) (k v k2 : String) :
    (m.set k v).get k2 = if k2 = k then some v else m.get k2 := by
  unfold GoMap.set GoMap.get
  by_cases h : k2 = k
  · simp [List.lookup_cons, h]
  · have hne : (k2 == k) = false := by simpa using h
    simp [List.lookup_cons, hne, h, lookup_filter_ne m k k2 h]

/-! ## What each operation does, by cases on the results it receives -/

theorem createInstanceConfig_spec {σ : Type} (x : External σ) (fuel : Nat) (w : World σ) :
    ∃ o s calls lines, createInstanceConfig x fuel w = (o, w.after s calls lines) ∧
      ((∃ c e, calls = [Call.GetInstanceConfig (getRequest baseConfigName) c (some e)] ∧
          o = .ret (some e) ∧ lines = []) ∨
       (calls = [Call.GetInstanceConfig (getRequest baseConfigName) none none] ∧
          o = .panic .nilDereference ∧ lines = []) ∨
       (∃ base op e, calls = [Call.GetInstanceConfig (getRequest baseConfigName) (some base) none,
            Call.CreateInstanceConfig (createRequest base) op (some e)] ∧
          o = .ret (some e) ∧ lines = []) ∨
       (∃ base, calls = [Call.GetInstanceConfig (getRequest baseConfigName) (some base) none,
            Call.CreateInstanceConfig (createRequest base) none none] ∧
          o = .panic .nilDereference ∧ lines = []) ∨
       (∃ base op c e, calls = [Call.GetInstanceConfig (getRequest baseConfigName) (some base) none,
            Call.CreateInstanceConfig (createRequest base) (some op) none,
            Call.Wait op c (some e)] ∧
          o = .ret (some e) ∧ lines = []) ∨
       (∃ base op c c2 e, calls = [Call.GetInstanceConfig (getRequest baseConfigName) (some base) none,
            Call.CreateInstanceConfig (createRequest base) (some op) none,
            Call.Wait op c none,
            Call.GetInstanceConfig (getRequest withName) c2 (some e)] ∧
          o = .ret (some e) ∧ lines = []) ∨
       (∃ base op c c2, calls = [Call.GetInstanceConfig (getRequest baseConfigName) (some base) none,
            Call.CreateInstanceConfig (createRequest base) (some op) none,
            Call.Wait op c none,
            Call.GetInstanceConfig (getRequest withName) c2 none] ∧
          o = .ret none ∧
          lines = ["Created instance config [" ++ x.MarshalIndent c2 ++ "]\n"])) := by
  rcases h1 : x.GetInstanceConfig (getRequest baseConfigName) w.remote with ⟨⟨c1, e1⟩, s1⟩
  cases e1 with
  | some e =>
    refine ⟨_, s1, _, [], ?_, Or.inl ⟨c1, e, rfl, rfl, rfl⟩⟩
    simp [createInstanceConfig, getInstanceConfig, h1, World.record, World.after]
  | none =>
    cases c1 with
    | none =>
      refine ⟨_, s1, _, [], ?_, Or.inr (Or.inl ⟨rfl, rfl, rfl⟩)⟩
      simp [createInstanceConfig, getInstanceConfig, h1, World.record, World.after]
    | some base =>
      rcases h2 : x.CreateInstanceConfig (createRequest base) s1 with ⟨⟨op, e2⟩, s2⟩
      cases e2 with
      | some e =>
        refine ⟨_, s2, _, [], ?_, Or.inr (Or.inr (Or.inl ⟨base, op, e, rfl, rfl, rfl⟩))⟩
        simp [createInstanceConfig, getInstanceConfig, h1, h2, World.record, World.after]
      | none =>
        cases op with
        | none =>
          refine ⟨_, s2, _, [], ?_, Or.inr (Or.inr (Or.inr (Or.inl ⟨base, rfl, rfl, rfl⟩)))⟩
          simp [createInstanceConfig, getInstanceConfig, h1, h2, World.record, World.after]
        | some op =>
          rcases h3 : x.Wait op s2 with ⟨⟨c3, e3⟩, s3⟩
          cases e3 with
          | some e =>
            refine ⟨_, s3, _, [], ?_,
              Or.inr (Or.inr (Or.inr (Or.inr (Or.inl ⟨base, op, c3, e, rfl, rfl, rfl⟩))))⟩
            simp [createInstanceConfig, getInstanceConfig, h1, h2, h3, World.record, World.after]
          | none =>
            rcases h4 : x.GetInstanceConfig (getRequest withName) s3 with ⟨⟨c4, e4⟩, s4⟩
            cases e4 with
            | some e =>
              refine ⟨_, s4, _, [], ?_,
                Or.inr (Or.inr (Or.inr (Or.inr (Or.inr (Or.inl
                  ⟨base, op, c3, c4, e, rfl, rfl, rfl⟩)))))⟩
              simp [createInstanceConfig, getInstanceConfig, h1, h2, h3, h4, World.record,
                World.after]
            | none =>
              refine ⟨_, s4, _, _, ?_,
                Or.inr (Or.inr (Or.inr (Or.inr (Or.inr (Or.inr
                  ⟨base, op, c3, c4, rfl, rfl, rfl⟩)))))⟩
              simp [createInstanceConfig, getInstanceConfig, h1, h2, h3, h4, World.record,
                World.after, World.fprintf]

theorem updateInstanceConfig_spec {σ : Type} (x : External σ) (fuel : Nat) (w : World σ) :
    ∃ o s calls lines, updateInstanceConfig x fuel w = (o, w.after s calls lines) ∧
      ((∃ c e, calls = [Call.GetInstanceConfig (getRequest withName) c (some e)] ∧
          o = .ret (some e) ∧ lines = []) ∨
       (calls = [Call.GetInstanceConfig (getRequest withName) none none] ∧
          o = .panic .nilDereference ∧ lines = []) ∨
       (∃ config, config.Labels = none ∧
          calls = [Call.GetInstanceConfig (getRequest withName) (some config) none] ∧
          o = .panic .nilMapAssignment ∧ lines = []) ∨
       (∃ config labels op eu c2 e, config.Labels = some labels ∧
          calls = [Call.GetInstanceConfig (getRequest withName) (some config) none,
            Call.UpdateInstanceConfig (updateRequest config labels) op eu,
            Call.GetInstanceConfig (getRequest withName) c2 (some e)] ∧
          o = .ret (some e) ∧ lines = []) ∨
       (∃ config labels op eu c2, config.Labels = some labels ∧
          calls = [Call.GetInstanceConfig (getRequest withName) (some config) none,
            Call.UpdateInstanceConfig (updateRequest config labels) op eu,
            Call.GetInstanceConfig (getRequest withName) c2 none] ∧
          o = .ret none ∧
          lines = ["Updated instance config [" ++ x.MarshalIndent c2 ++ "]\n"])) := by
  rcases h1 : x.GetInstanceConfig (getRequest withName) w.remote with ⟨⟨c1, e1⟩, s1⟩
  cases e1 with
  | some e =>
    refine ⟨_, s1, _, [], ?_, Or.inl ⟨c1, e, rfl, rfl, rfl⟩⟩
    simp [updateInstanceConfig, getInstanceConfig, h1, World.record, World.after]
  | none =>
    cases c1 with
    | none =>
      refine ⟨_, s1, _, [], ?_, Or.inr (Or.inl ⟨rfl, rfl, rfl⟩)⟩
      simp [updateInstanceConfig, getInstanceConfig, h1, World.record, World.after]
    | some config =>
      cases hl : config.Labels with
      | none =>
        refine ⟨_, s1, _, [], ?_, Or.inr (Or.inr (Or.inl ⟨config, hl, rfl, rfl, rfl⟩))⟩
        simp [updateInstanceConfig, getInstanceConfig, h1, hl, World.record, World.after]
      | some labels =>
        rcases h2 : x.UpdateInstanceConfig (updateRequest config labels) s1 with ⟨⟨op, eu⟩, s2⟩
        rcases h3 : x.GetInstanceConfig (getRequest withName) s2 with ⟨⟨c3, e3⟩, s3⟩
        cases e3 with
        | some e =>
          refine ⟨_, s3, _, [], ?_,
            Or.inr (Or.inr (Or.inr (Or.inl ⟨config, labels, op, eu, c3, e, hl, rfl, rfl, rfl⟩)))⟩
          simp [updateInstanceConfig, getInstanceConfig, h1, h2, h3, hl, World.record,
            World.after]
        | none =>
          refine ⟨_, s3, _, _, ?_,
            Or.inr (Or.inr (Or.inr (Or.inr ⟨config, labels, op, eu, c3, hl, rfl, rfl, rfl⟩)))⟩
          simp [updateInstanceConfig, getInstanceConfig, h1, h2, h3, hl, World.record,
            World.after, World.fprintf]

theorem deleteInstanceConfig_spec {σ : Type} (x : External σ) (fuel : Nat) (w : World σ) :
    ∃ o s calls lines, deleteInstanceConfig x fuel w = (o, w.after s calls lines) ∧
      ((∃ e, calls = [Call.DeleteInstanceConfig deleteRequest (some e)] ∧
          o = .ret (some e) ∧ lines = []) ∨
       (calls = [Call.DeleteInstanceConfig deleteRequest none] ∧
          o = .ret none ∧
          lines = ["Deleted instance config [custom-quickstart-go]\n"])) := by
  rcases h1 : x.DeleteInstanceConfig deleteRequest w.remote with ⟨e1, s1⟩
  cases e1 with
  | some e =>
    refine ⟨_, s1, _, [], ?_, Or.inl ⟨e, rfl, rfl, rfl⟩⟩
    simp [deleteInstanceConfig, h1, World.record, World.after]
  | none =>
    refine ⟨_, s1, _, _, ?_, Or.inr ⟨rfl, rfl, rfl⟩⟩
    simp [deleteInstanceConfig, h1, World.record, World.after, World.fprintf]
    decide

theorem World.after_after {σ : Type} (w : World σ) (s1 s2 : σ) (c1 c2 : List Call)
    (l1 l2 : List String) :
    (w.after s1 c1 l1).after s2 c2 l2 = w.after s2 (c1 ++ c2) (l1 ++ l2) := by
  simp [World.after, List.append_assoc]

theorem World.record_fprintf_eq {σ : Type} (w : World σ) (s : σ) (c : Call) (line : String) :
    (w.record s c).fprintf line = w.after s [c] [line] := by
  simp [World.after, World.record, World.fprintf]

theorem World.record_eq {σ : Type} (w : World σ) (s : σ) (c : Call) :
    w.record s c = w.after s [c] [] := by
  simp [World.after, World.record]

/-- The loop never returns an error and never calls `os.Exit`; it extends the
trace and the output. -/
theorem listLoop_spec {σ : Type} (x : External σ) (fuel : Nat) (w : World σ) :
    ∃ o s calls lines, listLoop x fuel w = (o, w.after s calls lines) ∧
      (o = .ret none ∨ (∃ v, o = .panic v) ∨ o = .diverge) := by
  induction fuel generalizing w with
  | zero =>
    exact ⟨.diverge, w.remote, [], [], by simp [listLoop, World.after], Or.inr (Or.inr rfl)⟩
  | succ n ih =>
    rcases h1 : x.Next w.remote with ⟨⟨op, e⟩, s1⟩
    cases e with
    | some e =>
      cases e with
      | Done =>
        exact ⟨.ret none, s1, [Call.Next op (some .Done)], [],
          by simp [listLoop, h1, World.record, World.after], Or.inl rfl⟩
      | other msg =>
        exact ⟨.panic (.error (.other msg)), s1, [Call.Next op (some (.other msg))], [],
          by simp [listLoop, h1, World.record, World.after], Or.inr (Or.inl ⟨_, rfl⟩)⟩
    | none =>
      cases op with
      | none =>
        exact ⟨.panic .nilDereference, s1, [Call.Next none none], [],
          by simp [listLoop, h1, World.record, World.after], Or.inr (Or.inl ⟨_, rfl⟩)⟩
      | some op =>
        obtain ⟨o, s, calls, lines, heq, ho⟩ :=
          ih ((w.record s1 (.Next (some op) none)).fprintf (operationLine op))
        refine ⟨o, s, Call.Next (some op) none :: calls, operationLine op :: lines, ?_, ho⟩
        simp only [listLoop, h1]
        rw [heq, World.record_fprintf_eq, World.after_after]
        rfl

theorem listLoop_yields {σ : Type} (x : External σ) (ops : List Operation) (fuel : Nat)
    (w : World σ) (h : IterYields x ops w.remote) (hfuel : ops.length < fuel) :
    ∃ s last, listLoop x fuel w =
      (.ret none, w.after s
        (ops.map (fun op => Call.Next (some op) none) ++ [Call.Next last (some .Done)])
        (ops.map operationLine)) := by
  induction ops generalizing w fuel with
  | nil =>
    obtain ⟨n, rfl⟩ : ∃ n, fuel = n + 1 := ⟨fuel - 1, by simp at hfuel; omega⟩
    rcases h1 : x.Next w.remote with ⟨⟨op, e⟩, s1⟩
    simp only [IterYields, h1] at h
    subst h
    exact ⟨s1, op, by simp [listLoop, h1, World.record, World.after]⟩
  | cons op ops ih =>
    obtain ⟨n, rfl⟩ : ∃ n, fuel = n + 1 := ⟨fuel - 1, by simp at hfuel; omega⟩
    rcases h1 : x.Next w.remote with ⟨r, s1⟩
    simp only [IterYields, h1] at h
    obtain ⟨rfl, hrest⟩ := h
    have hlen : ops.length < n := by simp at hfuel; omega
    obtain ⟨s, last, heq⟩ :=
      ih n ((w.record s1 (.Next (some op) none)).fprintf (operationLine op)) hrest hlen
    refine ⟨s, last, ?_⟩
    simp only [listLoop, h1]
    rw [heq, World.record_fprintf_eq, World.after_after]
    rfl

theorem listLoop_fails {σ : Type} (x : External σ) (e : GoError) (he : e ≠ .Done)
    (ops : List Operation) (fuel : Nat)
    (w : World σ) (h : IterFails x e ops w.remote) (hfuel : ops.length < fuel) :
    ∃ s last, listLoop x fuel w =
      (.panic (.error e), w.after s
        (ops.map (fun op => Call.Next (some op) none) ++ [Call.Next last (some e)])
        (ops.map operationLine)) := by
  induction ops generalizing w fuel with
  | nil =>
    obtain ⟨n, rfl⟩ : ∃ n, fuel = n + 1 := ⟨fuel - 1, by simp at hfuel; omega⟩
    rcases h1 : x.Next w.remote with ⟨⟨op, e2⟩, s1⟩
    simp only [IterFails, h1] at h
    subst h
    cases e with
    | Done => exact absurd rfl he
    | other msg => exact ⟨s1, op, by simp [listLoop, h1, World.record, World.after]⟩
  | cons op ops ih =>
    obtain ⟨n, rfl⟩ : ∃ n, fuel = n + 1 := ⟨fuel - 1, by simp at hfuel; omega⟩
    rcases h1 : x.Next w.remote with ⟨r, s1⟩
    simp only [IterFails, h1] at h
    obtain ⟨rfl, hrest⟩ := h
    have hlen : ops.length < n := by simp at hfuel; omega
    obtain ⟨s, last, heq⟩ :=
      ih n ((w.record s1 (.Next (some op) none)).fprintf (operationLine op)) hrest hlen
    refine ⟨s, last, ?_⟩
    simp only [listLoop, h1]
    rw [heq, World.record_fprintf_eq, World.after_after]
    rfl

theorem listInstanceConfigOperations_spec {σ : Type} (x : External σ) (fuel : Nat)
    (w : World σ) :
    ∃ o s calls lines, listInstanceConfigOperations x fuel w =
        (o, w.after s (Call.ListInstanceConfigOperations listRequest :: calls) lines) ∧
      (o = .ret none ∨ (∃ v, o = .panic v) ∨ o = .diverge) := by
  obtain ⟨o, s, calls, lines, heq, ho⟩ :=
    listLoop_spec x fuel (w.record (x.ListInstanceConfigOperations listRequest w.remote)
      (.ListInstanceConfigOperations listRequest))
  refine ⟨o, s, calls, lines, ?_, ho⟩
  simp only [listInstanceConfigOperations]
  rw [heq, World.record_eq, World.after_after]
  rfl

/-- Every function of the table makes at least one call on the client, and
none of them calls `os.Exit`. -/
theorem commands_spec {σ : Type} (x : External σ) (fuel : Nat) (w : World σ)
    (p : String × command σ) (hp : p ∈ commands σ) :
    ∃ o s calls lines, p.2 x fuel w = (o, w.after s calls lines) ∧ calls ≠ [] ∧
      ∀ code, o ≠ .exit code := by
  simp only [commands, List.mem_cons, List.mem_singleton, List.not_mem_nil, or_false] at hp
  rcases hp with rfl | rfl | rfl | rfl
  · obtain ⟨o, s, calls, lines, heq, h⟩ := createInstanceConfig_spec x fuel w
    refine ⟨o, s, calls, lines, heq, ?_, ?_⟩
    · rcases h with ⟨_, _, rfl, _⟩ | ⟨rfl, _⟩ | ⟨_, _, _, rfl, _⟩ | ⟨_, rfl, _⟩ |
        ⟨_, _, _, _, rfl, _⟩ | ⟨_, _, _, _, _, rfl, _⟩ | ⟨_, _, _, _, rfl, _⟩ <;> simp
    · rcases h with ⟨_, _, _, rfl, _⟩ | ⟨_, rfl, _⟩ | ⟨_, _, _, _, rfl, _⟩ | ⟨_, _, rfl, _⟩ |
        ⟨_, _, _, _, _, rfl, _⟩ | ⟨_, _, _, _, _, _, rfl, _⟩ | ⟨_, _, _, _, _, rfl, _⟩ <;> simp
  · obtain ⟨o, s, calls, lines, heq, h⟩ := updateInstanceConfig_spec x fuel w
    refine ⟨o, s, calls, lines, heq, ?_, ?_⟩
    · rcases h with ⟨_, _, rfl, _⟩ | ⟨rfl, _⟩ | ⟨_, _, rfl, _⟩ |
        ⟨_, _, _, _, _, _, _, rfl, _⟩ | ⟨_, _, _, _, _, _, rfl, _⟩ <;> simp
    · rcases h with ⟨_, _, _, rfl, _⟩ | ⟨_, rfl, _⟩ | ⟨_, _, _, rfl, _⟩ |
        ⟨_, _, _, _, _, _, _, _, rfl, _⟩ | ⟨_, _, _, _, _, _, _, rfl, _⟩ <;> simp
  · obtain ⟨o, s, calls, lines, heq, h⟩ := deleteInstanceConfig_spec x fuel w
    refine ⟨o, s, calls, lines, heq, ?_, ?_⟩
    · rcases h with ⟨_, rfl, _⟩ | ⟨rfl, _⟩ <;> simp
    · rcases h with ⟨_, _, rfl, _⟩ | ⟨_, rfl, _⟩ <;> simp
  · obtain ⟨o, s, calls, lines, heq, h⟩ := listInstanceConfigOperations_spec x fuel w
    refine ⟨o, s, _, lines, heq, by simp, ?_⟩
    rcases h with rfl | ⟨_, rfl⟩ | rfl <;> simp

theorem lookup_commands_none {σ : Type} (cmd : String)
    (hcmd : cmd ∉ ["create_instance_config", "update_instance_config",
      "delete_instance_config", "list_instance_config_operations"]) :
    (commands σ).lookup cmd = none := by
  simp only [List.mem_cons, List.mem_singleton, List.not_mem_nil, or_false, not_or] at hcmd
  obtain ⟨h1, h2, h3, h4⟩ := hcmd
  have e1 : (cmd == "create_instance_config") = false := by simpa using h1
  have e2 : (cmd == "update_instance_config") = false := by simpa using h2
  have e3 : (cmd == "delete_instance_config") = false := by simpa using h3
  have e4 : (cmd == "list_instance_config_operations") = false := by simpa using h4
  simp [commands, List.lookup_cons, e1, e2, e3, e4]

theorem lookup_commands_some {σ : Type} (cmd : String) (cmdFn : command σ)
    (h : (commands σ).lookup cmd = some cmdFn) : (cmd, cmdFn) ∈ commands σ := by
  by_cases h1 : cmd = "create_instance_config"
  · subst h1
    have : cmdFn = createInstanceConfig := by
      simpa [commands, List.lookup_cons] using h.symm
    simp [commands, this]
  by_cases h2 : cmd = "update_instance_config"
  · subst h2
    have : cmdFn = updateInstanceConfig := by
      simpa [commands, List.lookup_cons] using h.symm
    simp [commands, this]
  by_cases h3 : cmd = "delete_instance_config"
  · subst h3
    have : cmdFn = deleteInstanceConfig := by
      simpa [commands, List.lookup_cons] using h.symm
    simp [commands, this]
  by_cases h4 : cmd = "list_instance_config_operations"
  · subst h4
    have : cmdFn = listInstanceConfigOperations := by
      simpa [commands, List.lookup_cons] using h.symm
    simp [commands, this]
  have hnone := @lookup_commands_none σ cmd (by simp [h1, h2, h3, h4])
  rw [hnone] at h
  cases h

/-- The run of `updateInstanceConfig` once the first fetch has returned a
configuration with a label map. -/
theorem updateInstanceConfig_of_labels {σ : Type} (x : External σ) (fuel : Nat) (w : World σ)
    (config : InstanceConfig) (labels : GoMap)
    (hfetch : (x.GetInstanceConfig (getRequest withName) w.remote).1 = (some config, none))
    (hl : config.Labels = some labels) :
    updateInstanceConfig x fuel w =
      ((match (x.GetInstanceConfig (getRequest withName)
            (x.UpdateInstanceConfig (updateRequest config labels)
              (x.GetInstanceConfig (getRequest withName) w.remote).2).2).1.2 with
        | some e => .ret (some e)
        | none => .ret none),
       w.after
        (x.GetInstanceConfig (getRequest withName)
            (x.UpdateInstanceConfig (updateRequest config labels)
              (x.GetInstanceConfig (getRequest withName) w.remote).2).2).2
        [Call.GetInstanceConfig (getRequest withName) (some config) none,
         Call.UpdateInstanceConfig (updateRequest config labels)
          (x.UpdateInstanceConfig (updateRequest config labels)
            (x.GetInstanceConfig (getRequest withName) w.remote).2).1.1
          (x.UpdateInstanceConfig (updateRequest config labels)
            (x.GetInstanceConfig (getRequest withName) w.remote).2).1.2,
         Call.GetInstanceConfig (getRequest withName)
          (x.GetInstanceConfig (getRequest withName)
            (x.UpdateInstanceConfig (updateRequest config labels)
              (x.GetInstanceConfig (getRequest withName) w.remote).2).2).1.1
          (x.GetInstanceConfig (getRequest withName)
            (x.UpdateInstanceConfig (updateRequest config labels)
              (x.GetInstanceConfig (getRequest withName) w.remote).2).2).1.2]
        (match (x.GetInstanceConfig (getRequest withName)
            (x.UpdateInstanceConfig (updateRequest config labels)
              (x.GetInstanceConfig (getRequest withName) w.remote).2).2).1.2 with
        | some _ => []
        | none => ["Updated instance config [" ++ x.MarshalIndent
            (x.GetInstanceConfig (getRequest withName)
              (x.UpdateInstanceConfig (updateRequest config labels)
                (x.GetInstanceConfig (getRequest withName) w.remote).2).2).1.1 ++ "]\n"])) := by
  rcases h1 : x.GetInstanceConfig (getRequest withName) w.remote with ⟨⟨c1, e1⟩, s1⟩
  rw [h1] at hfetch
  simp only [Prod.mk.injEq] at hfetch
  obtain ⟨rfl, rfl⟩ := hfetch
  rcases h2 : x.UpdateInstanceConfig (updateRequest config labels) s1 with ⟨⟨op, eu⟩, s2⟩
  rcases h3 : x.GetInstanceConfig (getRequest withName) s2 with ⟨⟨c3, e3⟩, s3⟩
  cases e3 <;>
    simp [updateInstanceConfig, getInstanceConfig, h1, h2, h3, hl, World.record, World.after,
      World.fprintf]

/-- The run of `updateInstanceConfig` once the first fetch has returned a
configuration whose label map is nil. -/
theorem updateInstanceConfig_of_nil_labels {σ : Type} (x : External σ) (fuel : Nat)
    (w : World σ) (config : InstanceConfig)
    (hfetch : (x.GetInstanceConfig (getRequest withName) w.remote).1 = (some config, none))
    (hl : config.Labels = none) :
    updateInstanceConfig x fuel w =
      (.panic .nilMapAssignment,
       w.after (x.GetInstanceConfig (getRequest withName) w.remote).2
        [Call.GetInstanceConfig (getRequest withName) (some config) none] []) := by
  rcases h1 : x.GetInstanceConfig (getRequest withName) w.remote with ⟨⟨c1, e1⟩, s1⟩
  rw [h1] at hfetch
  simp only [Prod.mk.injEq] at hfetch
  obtain ⟨rfl, rfl⟩ := hfetch
  simp [updateInstanceConfig, getInstanceConfig, h1, hl, World.record, World.after]

theorem commandNames_eq :
    commandNames = ["create_instance_config", "update_instance_config",
      "delete_instance_config", "list_instance_config_operations"] := rfl

theorem lookup_commands_list {σ : Type} :
    (commands σ).lookup "list_instance_config_operations" =
      some listInstanceConfigOperations := by
  simp [commands, List.lookup_cons]

theorem lookup_commands_mem {σ : Type} (cmd : String) (h : cmd ∈ commandNames) :
    ∃ cmdFn, (commands σ).lookup cmd = some cmdFn := by
  rw [commandNames_eq] at h
  simp only [List.mem_cons, List.mem_singleton, List.not_mem_nil, or_false] at h
  rcases h with rfl | rfl | rfl | rfl
  · exact ⟨createInstanceConfig, by simp [commands, List.lookup_cons]⟩
  · exact ⟨updateInstanceConfig, by simp [commands, List.lookup_cons]⟩
  · exact ⟨deleteInstanceConfig, by simp [commands, List.lookup_cons]⟩
  · exact ⟨listInstanceConfigOperations, by simp [commands, List.lookup_cons]⟩

/-- The run of `main` once `flag.Parse()` has returned a command and the
client has been constructed. -/
theorem main_of_command {σ : Type} (x : External σ) (fuel : Nat) (osArgs : List String)
    (w0 : World σ) (cmd : String) (rest : List String)
    (hparse : flagParse osArgs = .positional (cmd :: rest))
    (hnew : (x.NewInstanceAdminClient w0.remote).1 = none) :
    main x fuel osArgs w0 =
      match run x fuel cmd (clientWorld x w0) with
      | (.ret (some _), w2) => (some 1, w2)
      | (.ret none, w2) => (some 0, runDeferred x w2)
      | (.exit code, w2) => (some code, w2)
      | (.panic _, w2) => (some 2, runDeferred x w2)
      | (.diverge, w2) => (none, w2) := by
  have hcreate : createClients x { w0 with flagUsage := usageText } =
      (.ret (), clientWorld x w0) := by
    simp [createClients, hnew, clientWorld]
  simp only [main, hparse, hcreate]

/-! ## The claims -/

/-- C1: for every command name that is not one of the four keys of the table,
`run` ends the process with exit code 2 after it has printed the usage text:
the current text of `flag.Usage` is appended to standard error and nothing
else changes, so the trace of calls on the client, the remote state and the
output are as they were; the final trace differs from the one any function
of the table would have left, so none of them was called. In `main`, for such
a command with the client constructed, what is appended to standard error is
the usage text installed by `main`, and the exit code is 2. -/
theorem run_unknown_command {σ : Type} (x : External σ) (fuel : Nat) (cmd : String)
    (w : World σ)
    (hcmd : cmd ∉ ["create_instance_config", "update_instance_config",
      "delete_instance_config", "list_instance_config_operations"]) :
    run x fuel cmd w = (.exit 2, { w with stderr := w.stderr ++ [w.flagUsage] }) ∧
    (run x fuel cmd w).1 = .exit 2 ∧
    (run x fuel cmd w).2.stderr = w.stderr ++ [w.flagUsage] ∧
    (run x fuel cmd w).2.trace = w.trace ∧
    (run x fuel cmd w).2.remote = w.remote ∧
    (run x fuel cmd w).2.out = w.out ∧
    (∀ p ∈ commands σ, (p.2 x fuel w).2.trace ≠ (run x fuel cmd w).2.trace) ∧
    (∀ osArgs rest w0, flagParse osArgs = .positional (cmd :: rest) →
      (x.NewInstanceAdminClient w0.remote).1 = none →
      (main x fuel osArgs w0).1 = some 2 ∧
      (main x fuel osArgs w0).2.stderr = w0.stderr ++ [usageText] ∧
      (main x fuel osArgs w0).2.trace = w0.trace ∧
      (main x fuel osArgs w0).2.out = w0.out) := by
  have hrun : ∀ w1 : World σ,
      run x fuel cmd w1 = (.exit 2, { w1 with stderr := w1.stderr ++ [w1.flagUsage] }) := by
    intro w1
    simp [run, lookup_commands_none cmd hcmd, World.usage]
  refine ⟨hrun w, by rw [hrun], by rw [hrun], by rw [hrun], by rw [hrun], by rw [hrun],
    ?_, ?_⟩
  · intro p hp
    obtain ⟨o, s, calls, lines, heq, hne, _⟩ := commands_spec x fuel w p hp
    rw [hrun, heq]
    simp only [World.after]
    intro h
    exact hne (by simpa using h)
  · intro osArgs rest w0 hparse hnew
    rw [main_of_command x fuel osArgs w0 cmd rest hparse hnew, hrun]
    exact ⟨rfl, rfl, rfl, rfl⟩

theorem run_unknown_command_witness :
    "bogus" ∉ ["create_instance_config", "update_instance_config",
      "delete_instance_config", "list_instance_config_operations"] ∧
    run scripted 3 "bogus"
        { World.init sampleScript with
          stderr := ["earlier\n"], flagUsage := "Usage of quickstart:\n" } =
      (.exit 2,
       { remote := sampleScript
         trace := []
         out := []
         stderr := ["earlier\n", "Usage of quickstart:\n"]
         flagUsage := "Usage of quickstart:\n" }) ∧
    flagParse ["bogus", "more"] = .positional ["bogus", "more"] ∧
    (main scripted 3 ["bogus", "more"] (World.init sampleScript)).2.stderr = [usageText] :=
  ⟨by decide,
   (run_unknown_command scripted 3 "bogus"
      { World.init sampleScript with
        stderr := ["earlier\n"], flagUsage := "Usage of quickstart:\n" } (by decide)).1,
   rfl,
   ((run_unknown_command scripted 3 "bogus" (World.init sampleScript) (by decide)).2.2.2.2.2.2.2
      ["bogus", "more"] ["more"] (World.init sampleScript) rfl rfl).2.1⟩

/-- C2: for every base configuration the fetch of `baseConfigName` returns,
`createInstanceConfig` issues exactly one create call; its request carries the
replica list `base.Replicas ++ base.OptionalReplicas`, and both its
`InstanceConfigId` and the last segment of its `Name` start with `custom-`. -/
theorem createInstanceConfig_request {σ : Type} (x : External σ) (fuel : Nat) (w : World σ)
    (base : InstanceConfig)
    (hbase : (x.GetInstanceConfig (getRequest baseConfigName) w.remote).1 = (some base, none)) :
    ∃ req op err rest,
      (createInstanceConfig x fuel w).2.trace =
        w.trace ++ Call.GetInstanceConfig (getRequest baseConfigName) (some base) none ::
          Call.CreateInstanceConfig req op err :: rest ∧
      (∀ c ∈ rest, c.isCreate = false) ∧
      req.InstanceConfig.Replicas = base.Replicas ++ base.OptionalReplicas ∧
      "custom-".data <+: req.InstanceConfigId.data ∧
      "custom-".data <+: (lastSegment req.InstanceConfig.Name).data := by
  rcases h1 : x.GetInstanceConfig (getRequest baseConfigName) w.remote with ⟨⟨c1, e1⟩, s1⟩
  rw [h1] at hbase
  simp only [Prod.mk.injEq] at hbase
  obtain ⟨rfl, rfl⟩ := hbase
  rcases h2 : x.CreateInstanceConfig (createRequest base) s1 with ⟨⟨op, e2⟩, s2⟩
  refine ⟨createRequest base, op, e2, ?_⟩
  have hprops : (createRequest base).InstanceConfig.Replicas =
        base.Replicas ++ base.OptionalReplicas ∧
      "custom-".data <+: (createRequest base).InstanceConfigId.data ∧
      "custom-".data <+: (lastSegment (createRequest base).InstanceConfig.Name).data :=
    ⟨rfl, (by decide : "custom-".data <+: withName.data),
      (by decide : "custom-".data <+:
        (lastSegment (projectPath ++ "/instanceConfigs/" ++ withName)).data)⟩
  cases e2 with
  | some e =>
    refine ⟨[], ?_, by simp, hprops⟩
    simp [createInstanceConfig, getInstanceConfig, h1, h2, World.record]
  | none =>
    cases op with
    | none =>
      refine ⟨[], ?_, by simp, hprops⟩
      simp [createInstanceConfig, getInstanceConfig, h1, h2, World.record]
    | some op =>
      rcases h3 : x.Wait op s2 with ⟨⟨c3, e3⟩, s3⟩
      cases e3 with
      | some e =>
        refine ⟨[Call.Wait op c3 (some e)], ?_, by simp [Call.isCreate], hprops⟩
        simp [createInstanceConfig, getInstanceConfig, h1, h2, h3, World.record]
      | none =>
        rcases h4 : x.GetInstanceConfig (getRequest withName) s3 with ⟨⟨c4, e4⟩, s4⟩
        refine ⟨[Call.Wait op c3 none, Call.GetInstanceConfig (getRequest withName) c4 e4], ?_,
          by simp [Call.isCreate], hprops⟩
        cases e4 <;>
          simp [createInstanceConfig, getInstanceConfig, h1, h2, h3, h4, World.record,
            World.fprintf]

theorem createInstanceConfig_request_witness :
    (scripted.GetInstanceConfig (getRequest baseConfigName)
      (World.init { sampleScript with gets := [(some sampleBase, none)] }).remote).1 =
        (some sampleBase, none) ∧
    ∃ req op err rest,
      (createInstanceConfig scripted 0
          (World.init { sampleScript with gets := [(some sampleBase, none)] })).2.trace =
        [] ++ Call.GetInstanceConfig (getRequest baseConfigName) (some sampleBase) none ::
          Call.CreateInstanceConfig req op err :: rest ∧
      (∀ c ∈ rest, c.isCreate = false) ∧
      req.InstanceConfig.Replicas = sampleBase.Replicas ++ sampleBase.OptionalReplicas ∧
      "custom-".data <+: req.InstanceConfigId.data ∧
      "custom-".data <+: (lastSegment req.InstanceConfig.Name).data :=
  ⟨rfl, createInstanceConfig_request scripted 0
    (World.init { sampleScript with gets := [(some sampleBase, none)] }) sampleBase rfl⟩

/-- C3: for every configuration fetched by `updateInstanceConfig`, every update
call it issues has the field mask `["display_name", "labels"]` and sends a
configuration that equals the fetched one once `DisplayName` and `Labels` are
put back, so that the replica list, the optional replica list, the name, the
config type and the base config are the fetched ones; and when the fetched
label map is not nil such a call is issued. -/
theorem updateInstanceConfig_frame {σ : Type} (x : External σ) (fuel : Nat) (w : World σ)
    (config : InstanceConfig)
    (hfetch : (x.GetInstanceConfig (getRequest withName) w.remote).1 = (some config, none)) :
    ∃ calls, (updateInstanceConfig x fuel w).2.trace = w.trace ++ calls ∧
      (∀ req op err, Call.UpdateInstanceConfig req op err ∈ calls →
        req.UpdateMask = ["display_name", "labels"] ∧
        { req.InstanceConfig with
            DisplayName := config.DisplayName, Labels := config.Labels } = config ∧
        req.InstanceConfig.Replicas = config.Replicas ∧
        req.InstanceConfig.OptionalReplicas = config.OptionalReplicas ∧
        req.InstanceConfig.Name = config.Name ∧
        req.InstanceConfig.ConfigType = config.ConfigType ∧
        req.InstanceConfig.BaseConfig = config.BaseConfig) ∧
      (config.Labels ≠ none → ∃ req op err, Call.UpdateInstanceConfig req op err ∈ calls) := by
  cases hl : config.Labels with
  | none =>
    rw [updateInstanceConfig_of_nil_labels x fuel w config hfetch hl]
    exact ⟨_, rfl, by simp, by simp⟩
  | some labels =>
    rw [updateInstanceConfig_of_labels x fuel w config labels hfetch hl]
    refine ⟨_, rfl, ?_, ?_⟩
    · intro req op err hmem
      simp only [List.mem_cons, List.mem_singleton, List.not_mem_nil, or_false,
        Call.UpdateInstanceConfig.injEq, false_or] at hmem
      simp only [reduceCtorEq, false_or, or_false] at hmem
      obtain ⟨rfl, _, _⟩ := hmem
      refine ⟨rfl, ?_, rfl, rfl, rfl, rfl, rfl⟩
      simp [updateRequest, ← hl]
    · intro _
      exact ⟨_, _, _, List.mem_cons_of_mem _ (List.mem_cons_self _ _)⟩

theorem updateInstanceConfig_frame_witness :
    (scripted.GetInstanceConfig (getRequest withName) (World.init sampleScript).remote).1 =
      (some sampleCustom, none) ∧
    ∃ calls, (updateInstanceConfig scripted 0 (World.init sampleScript)).2.trace = [] ++ calls ∧
      (∀ req op err, Call.UpdateInstanceConfig req op err ∈ calls →
        req.UpdateMask = ["display_name", "labels"] ∧
        { req.InstanceConfig with
            DisplayName := sampleCustom.DisplayName, Labels := sampleCustom.Labels } =
          sampleCustom ∧
        req.InstanceConfig.Replicas = sampleCustom.Replicas ∧
        req.InstanceConfig.OptionalReplicas = sampleCustom.OptionalReplicas ∧
        req.InstanceConfig.Name = sampleCustom.Name ∧
        req.InstanceConfig.ConfigType = sampleCustom.ConfigType ∧
        req.InstanceConfig.BaseConfig = sampleCustom.BaseConfig) ∧
      (sampleCustom.Labels ≠ none →
        ∃ req op err, Call.UpdateInstanceConfig req op err ∈ calls) :=
  ⟨rfl, updateInstanceConfig_frame scripted 0 (World.init sampleScript) sampleCustom rfl⟩

/-- C8: once the first fetch has returned a configuration with a label map,
whatever the update call returns, `updateInstanceConfig` goes on to the second
fetch, and what it returns and writes is read off the second fetch alone: the
error of that fetch with nothing written, or nil with the line
`Updated instance config [...]`; so also when the update call failed. -/
theorem updateInstanceConfig_ignores_update_result {σ : Type} (x : External σ) (fuel : Nat)
    (w : World σ) (config : InstanceConfig) (labels : GoMap)
    (hfetch : (x.GetInstanceConfig (getRequest withName) w.remote).1 = (some config, none))
    (hl : config.Labels = some labels) :
    (updateInstanceConfig x fuel w).2.trace =
      w.trace ++
        [Call.GetInstanceConfig (getRequest withName) (some config) none,
         Call.UpdateInstanceConfig (updateRequest config labels)
          (updateResult x w config labels).1.1 (updateResult x w config labels).1.2,
         Call.GetInstanceConfig (getRequest withName)
          (refetchResult x w config labels).1.1 (refetchResult x w config labels).1.2] ∧
    (∀ e, (refetchResult x w config labels).1.2 = some e →
      (updateInstanceConfig x fuel w).1 = .ret (some e) ∧
      (updateInstanceConfig x fuel w).2.out = w.out) ∧
    ((refetchResult x w config labels).1.2 = none →
      (updateInstanceConfig x fuel w).1 = .ret none ∧
      (updateInstanceConfig x fuel w).2.out =
        w.out ++ ["Updated instance config [" ++
          x.MarshalIndent (refetchResult x w config labels).1.1 ++ "]\n"]) ∧
    (∀ e, (updateResult x w config labels).1.2 = some e →
      (refetchResult x w config labels).1.2 = none →
      (updateInstanceConfig x fuel w).1 = .ret none ∧
      (updateInstanceConfig x fuel w).2.out =
        w.out ++ ["Updated instance config [" ++
          x.MarshalIndent (refetchResult x w config labels).1.1 ++ "]\n"]) := by
  have hrun := updateInstanceConfig_of_labels x fuel w config labels hfetch hl
  have hsome : ∀ e, (refetchResult x w config labels).1.2 = some e →
      (updateInstanceConfig x fuel w).1 = .ret (some e) ∧
      (updateInstanceConfig x fuel w).2.out = w.out := by
    intro e he
    simp only [refetchResult, updateResult] at he
    rw [hrun]
    simp [he, World.after]
  have hnone : (refetchResult x w config labels).1.2 = none →
      (updateInstanceConfig x fuel w).1 = .ret none ∧
      (updateInstanceConfig x fuel w).2.out =
        w.out ++ ["Updated instance config [" ++
          x.MarshalIndent (refetchResult x w config labels).1.1 ++ "]\n"] := by
    intro he
    simp only [refetchResult, updateResult] at he
    rw [hrun]
    simp [he, World.after, refetchResult, updateResult]
  refine ⟨?_, hsome, hnone, fun _ _ he => hnone he⟩
  rw [hrun]
  rfl

theorem updateInstanceConfig_ignores_update_result_witness :
    (updateInstanceConfig scripted 0
        (World.init { sampleScript with update := (none, some (.other "invalid argument")) })).1 =
      .ret none ∧
    (updateInstanceConfig scripted 0
        (World.init { sampleScript with update := (none, some (.other "invalid argument")) })).2.out =
      ["Updated instance config [projects/my-project/instanceConfigs/custom-quickstart-go]\n"] :=
  (updateInstanceConfig_ignores_update_result scripted 0
    (World.init { sampleScript with update := (none, some (.other "invalid argument")) })
    sampleCustom [("cmmr_phase2_quickstart_go", "true")] rfl rfl).2.2.2
    (.other "invalid argument") rfl rfl

/-- C10: when the fetched configuration has a label map, `updateInstanceConfig`
reaches the update call and never panics; the request carries the display name
`Updated custom quickstart go` and a label map that reads `true` at `updated`
and the fetched value at every other key. When the fetched label map is nil,
the label write panics after the fetch, before any update call. -/
theorem updateInstanceConfig_labels {σ : Type} (x : External σ) (fuel : Nat) (w : World σ)
    (config : InstanceConfig)
    (hfetch : (x.GetInstanceConfig (getRequest withName) w.remote).1 = (some config, none)) :
    (∀ labels, config.Labels = some labels →
      ∃ req op err rest,
        (updateInstanceConfig x fuel w).2.trace =
          w.trace ++ Call.GetInstanceConfig (getRequest withName) (some config) none ::
            Call.UpdateInstanceConfig req op err :: rest ∧
        req.InstanceConfig.DisplayName = "Updated custom quickstart go" ∧
        (∃ sent, req.InstanceConfig.Labels = some sent ∧
          ∀ k, sent.get k = if k = "updated" then some "true" else labels.get k) ∧
        ∀ v, (updateInstanceConfig x fuel w).1 ≠ .panic v) ∧
    (config.Labels = none →
      (updateInstanceConfig x fuel w).1 = .panic .nilMapAssignment ∧
      (updateInstanceConfig x fuel w).2.trace =
        w.trace ++ [Call.GetInstanceConfig (getRequest withName) (some config) none] ∧
      (updateInstanceConfig x fuel w).2.out = w.out) := by
  constructor
  · intro labels hl
    rw [updateInstanceConfig_of_labels x fuel w config labels hfetch hl]
    refine ⟨updateRequest config labels, _, _, _, rfl, rfl,
      ⟨labels.set "updated" "true", rfl, fun k => GoMap.get_set labels "updated" "true" k⟩, ?_⟩
    intro v
    cases (x.GetInstanceConfig (getRequest withName)
      (x.UpdateInstanceConfig (updateRequest config labels)
        (x.GetInstanceConfig (getRequest withName) w.remote).2).2).1.2 <;> simp
  · intro hl
    rw [updateInstanceConfig_of_nil_labels x fuel w config hfetch hl]
    exact ⟨rfl, rfl, by simp [World.after]⟩

theorem updateInstanceConfig_labels_witness :
    (scripted.GetInstanceConfig (getRequest withName)
      (World.init { sampleScript with gets := [(some sampleBase, none)] }).remote).1 =
        (some sampleBase, none) ∧
    sampleBase.Labels = none ∧
    (scripted.GetInstanceConfig (getRequest withName) (World.init sampleScript).remote).1 =
      (some sampleCustom, none) ∧
    sampleCustom.Labels = some [("cmmr_phase2_quickstart_go", "true")] ∧
    (updateInstanceConfig scripted 0
      (World.init { sampleScript with gets := [(some sampleBase, none)] })).1 =
        .panic .nilMapAssignment ∧
    ∀ v, (updateInstanceConfig scripted 0 (World.init sampleScript)).1 ≠ .panic v :=
  ⟨rfl, rfl, rfl, rfl,
   ((updateInstanceConfig_labels scripted 0
      (World.init { sampleScript with gets := [(some sampleBase, none)] })
      sampleBase rfl).2 rfl).1,
   by
    obtain ⟨_, _, _, _, _, _, _, h⟩ :=
      (updateInstanceConfig_labels scripted 0 (World.init sampleScript) sampleCustom rfl).1
        [("cmmr_phase2_quickstart_go", "true")] rfl
    exact h⟩

/-- C5: a remote call that fails with an error `e` makes the operation return
exactly `e`, with that call the last one in the trace and nothing written:
in `createInstanceConfig` for the base fetch, the create call, the wait and
the re-fetch, in `deleteInstanceConfig` for the delete call, and in
`updateInstanceConfig` for each of its two fetches. When every call of the
sequence comes back without error, `createInstanceConfig` and
`deleteInstanceConfig` write their result line and return nil; they return
nil only then, and write nothing unless they return nil. -/
theorem operations_return_errors_unmodified {σ : Type} (x : External σ) (fuel : Nat)
    (w : World σ) :
    ((∀ e, (baseFetch x w).1.2 = some e →
        createInstanceConfig x fuel w =
          (.ret (some e), w.after (baseFetch x w).2
            [Call.GetInstanceConfig (getRequest baseConfigName) (baseFetch x w).1.1 (some e)]
            [])) ∧
     (∀ base e, (baseFetch x w).1 = (some base, none) →
        (createResult x w base).1.2 = some e →
        createInstanceConfig x fuel w =
          (.ret (some e), w.after (createResult x w base).2
            [Call.GetInstanceConfig (getRequest baseConfigName) (some base) none,
             Call.CreateInstanceConfig (createRequest base) (createResult x w base).1.1 (some e)]
            [])) ∧
     (∀ base op e, (baseFetch x w).1 = (some base, none) →
        (createResult x w base).1 = (some op, none) →
        (waitResult x w base op).1.2 = some e →
        createInstanceConfig x fuel w =
          (.ret (some e), w.after (waitResult x w base op).2
            [Call.GetInstanceConfig (getRequest baseConfigName) (some base) none,
             Call.CreateInstanceConfig (createRequest base) (some op) none,
             Call.Wait op (waitResult x w base op).1.1 (some e)]
            [])) ∧
     (∀ base op e, (baseFetch x w).1 = (some base, none) →
        (createResult x w base).1 = (some op, none) →
        (waitResult x w base op).1.2 = none →
        (createdFetch x w base op).1.2 = some e →
        createInstanceConfig x fuel w =
          (.ret (some e), w.after (createdFetch x w base op).2
            [Call.GetInstanceConfig (getRequest baseConfigName) (some base) none,
             Call.CreateInstanceConfig (createRequest base) (some op) none,
             Call.Wait op (waitResult x w base op).1.1 none,
             Call.GetInstanceConfig (getRequest withName) (createdFetch x w base op).1.1 (some e)]
            [])) ∧
     (∀ base op, (baseFetch x w).1 = (some base, none) →
        (createResult x w base).1 = (some op, none) →
        (waitResult x w base op).1.2 = none →
        (createdFetch x w base op).1.2 = none →
        createInstanceConfig x fuel w =
          (.ret none, w.after (createdFetch x w base op).2
            [Call.GetInstanceConfig (getRequest baseConfigName) (some base) none,
             Call.CreateInstanceConfig (createRequest base) (some op) none,
             Call.Wait op (waitResult x w base op).1.1 none,
             Call.GetInstanceConfig (getRequest withName) (createdFetch x w base op).1.1 none]
            ["Created instance config [" ++
              x.MarshalIndent (createdFetch x w base op).1.1 ++ "]\n"])) ∧
     ((createInstanceConfig x fuel w).1 = .ret none →
        ∃ base op, (baseFetch x w).1 = (some base, none) ∧
          (createResult x w base).1 = (some op, none) ∧
          (waitResult x w base op).1.2 = none ∧
          (createdFetch x w base op).1.2 = none) ∧
     ((createInstanceConfig x fuel w).2.out ≠ w.out →
        (createInstanceConfig x fuel w).1 = .ret none)) ∧
    ((∀ e, (deleteResult x w).1 = some e →
        deleteInstanceConfig x fuel w =
          (.ret (some e), w.after (deleteResult x w).2
            [Call.DeleteInstanceConfig deleteRequest (some e)] [])) ∧
     ((deleteResult x w).1 = none →
        deleteInstanceConfig x fuel w =
          (.ret none, w.after (deleteResult x w).2
            [Call.DeleteInstanceConfig deleteRequest none]
            ["Deleted instance config [custom-quickstart-go]\n"])) ∧
     ((deleteInstanceConfig x fuel w).1 = .ret none → (deleteResult x w).1 = none) ∧
     ((deleteInstanceConfig x fuel w).2.out ≠ w.out →
        (deleteInstanceConfig x fuel w).1 = .ret none)) ∧
    ((∀ e, (customFetch x w).1.2 = some e →
        updateInstanceConfig x fuel w =
          (.ret (some e), w.after (customFetch x w).2
            [Call.GetInstanceConfig (getRequest withName) (customFetch x w).1.1 (some e)]
            [])) ∧
     (∀ config labels e, (customFetch x w).1 = (some config, none) →
        config.Labels = some labels →
        (refetchResult x w config labels).1.2 = some e →
        updateInstanceConfig x fuel w =
          (.ret (some e), w.after (refetchResult x w config labels).2
            [Call.GetInstanceConfig (getRequest withName) (some config) none,
             Call.UpdateInstanceConfig (updateRequest config labels)
              (updateResult x w config labels).1.1 (updateResult x w config labels).1.2,
             Call.GetInstanceConfig (getRequest withName)
              (refetchResult x w config labels).1.1 (some e)]
            []))) := by
  refine ⟨⟨?_, ?_, ?_, ?_, ?_, ?_, ?_⟩, ⟨?_, ?_, ?_, ?_⟩, ⟨?_, ?_⟩⟩
  · intro e h1
    simp only [baseFetch] at h1 ⊢
    simp [createInstanceConfig, getInstanceConfig, h1, World.record, World.after]
  · intro base e h1 h2
    simp only [baseFetch, createResult] at h1 h2 ⊢
    rcases hc : x.CreateInstanceConfig (createRequest base)
      (x.GetInstanceConfig (getRequest baseConfigName) w.remote).2 with ⟨⟨op, e2⟩, s2⟩
    rw [hc] at h2
    simp only at h2
    subst h2
    simp [createInstanceConfig, getInstanceConfig, h1, hc, World.record, World.after]
  · intro base op e h1 h2 h3
    simp only [baseFetch, createResult, waitResult] at h1 h2 h3 ⊢
    simp [createInstanceConfig, getInstanceConfig, h1, h2, h3, World.record, World.after]
  · intro base op e h1 h2 h3 h4
    simp only [baseFetch, createResult, waitResult, createdFetch] at h1 h2 h3 h4 ⊢
    simp [createInstanceConfig, getInstanceConfig, h1, h2, h3, h4, World.record, World.after]
  · intro base op h1 h2 h3 h4
    simp only [baseFetch, createResult, waitResult, createdFetch] at h1 h2 h3 h4 ⊢
    simp [createInstanceConfig, getInstanceConfig, h1, h2, h3, h4, World.record, World.after,
      World.fprintf]
  · simp only [baseFetch, createResult, waitResult, createdFetch]
    rcases h1 : x.GetInstanceConfig (getRequest baseConfigName) w.remote with ⟨⟨c1, e1⟩, s1⟩
    cases e1 with
    | some e => simp [createInstanceConfig, getInstanceConfig, h1]
    | none =>
      cases c1 with
      | none => simp [createInstanceConfig, getInstanceConfig, h1]
      | some base =>
        rcases h2 : x.CreateInstanceConfig (createRequest base) s1 with ⟨⟨op, e2⟩, s2⟩
        cases e2 with
        | some e => simp [createInstanceConfig, getInstanceConfig, h1, h2, World.record]
        | none =>
          cases op with
          | none => simp [createInstanceConfig, getInstanceConfig, h1, h2, World.record]
          | some op =>
            rcases h3 : x.Wait op s2 with ⟨⟨c3, e3⟩, s3⟩
            cases e3 with
            | some e =>
              simp [createInstanceConfig, getInstanceConfig, h1, h2, h3, World.record]
            | none =>
              rcases h4 : x.GetInstanceConfig (getRequest withName) s3 with ⟨⟨c4, e4⟩, s4⟩
              cases e4 with
              | some e =>
                simp [createInstanceConfig, getInstanceConfig, h1, h2, h3, h4, World.record]
              | none =>
                intro _
                exact ⟨base, op, rfl, by simp [h2], by simp [h2, h3], by simp [h2, h3, h4]⟩
  · obtain ⟨o, s, calls, lines, heq, h⟩ := createInstanceConfig_spec x fuel w
    rw [heq]
    rcases h with ⟨_, _, rfl, rfl, rfl⟩ | ⟨rfl, rfl, rfl⟩ | ⟨_, _, _, rfl, rfl, rfl⟩ |
      ⟨_, rfl, rfl, rfl⟩ | ⟨_, _, _, _, rfl, rfl, rfl⟩ | ⟨_, _, _, _, _, rfl, rfl, rfl⟩ |
      ⟨_, _, _, _, rfl, rfl, rfl⟩ <;> simp [World.after]
  · intro e h1
    simp only [deleteResult] at h1 ⊢
    simp [deleteInstanceConfig, h1, World.record, World.after]
  · intro h1
    simp only [deleteResult] at h1 ⊢
    simp [deleteInstanceConfig, h1, World.record, World.after, World.fprintf]
    decide
  · simp only [deleteResult]
    rcases h1 : x.DeleteInstanceConfig deleteRequest w.remote with ⟨e1, s1⟩
    cases e1 <;> simp [deleteInstanceConfig, h1]
  · obtain ⟨o, s, calls, lines, heq, h⟩ := deleteInstanceConfig_spec x fuel w
    rw [heq]
    rcases h with ⟨_, rfl, rfl, rfl⟩ | ⟨rfl, rfl, rfl⟩ <;> simp [World.after]
  · intro e h1
    simp only [customFetch] at h1 ⊢
    simp [updateInstanceConfig, getInstanceConfig, h1, World.record, World.after]
  · intro config labels e h1 hl h3
    have hrun := updateInstanceConfig_of_labels x fuel w config labels h1 hl
    simp only [refetchResult, updateResult] at h3 ⊢
    rw [hrun]
    simp [h3]

theorem operations_return_errors_unmodified_witness :
    createInstanceConfig scripted 0
        (World.init { sampleScript with
          gets := [(some sampleBase, none)],
          wait := (none, some (.other "deadline exceeded")) }) =
      (.ret (some (.other "deadline exceeded")),
       { remote := { sampleScript with
            gets := [], wait := (none, some (.other "deadline exceeded")) }
         trace :=
          [Call.GetInstanceConfig (getRequest baseConfigName) (some sampleBase) none,
           Call.CreateInstanceConfig (createRequest sampleBase) (some { id := 7 }) none,
           Call.Wait { id := 7 } none (some (.other "deadline exceeded"))]
         out := []
         stderr := []
         flagUsage := "" }) ∧
    deleteInstanceConfig scripted 0
        (World.init { sampleScript with delete := some (.other "in use") }) =
      (.ret (some (.other "in use")),
       { remote := { sampleScript with delete := some (.other "in use") }
         trace := [Call.DeleteInstanceConfig deleteRequest (some (.other "in use"))]
         out := []
         stderr := []
         flagUsage := "" }) ∧
    (deleteInstanceConfig scripted 0 (World.init sampleScript)).2.out =
      ["Deleted instance config [custom-quickstart-go]\n"] ∧
    updateInstanceConfig scripted 0
        (World.init { sampleScript with gets := [(some sampleCustom, none)] }) =
      (.ret (some (.other "not found")),
       { remote := { sampleScript with gets := [] }
         trace :=
          [Call.GetInstanceConfig (getRequest withName) (some sampleCustom) none,
           Call.UpdateInstanceConfig
            (updateRequest sampleCustom [("cmmr_phase2_quickstart_go", "true")])
            (some { id := 8 }) none,
           Call.GetInstanceConfig (getRequest withName) none (some (.other "not found"))]
         out := []
         stderr := []
         flagUsage := "" }) :=
  ⟨(operations_return_errors_unmodified scripted 0
      (World.init { sampleScript with
        gets := [(some sampleBase, none)],
        wait := (none, some (.other "deadline exceeded")) })).1.2.2.1
      sampleBase { id := 7 } (.other "deadline exceeded") rfl rfl rfl,
   (operations_return_errors_unmodified scripted 0
      (World.init { sampleScript with delete := some (.other "in use") })).2.1.1
      (.other "in use") rfl,
   congrArg (fun r => r.2.out)
    ((operations_return_errors_unmodified scripted 0 (World.init sampleScript)).2.1.2.1 rfl),
   (operations_return_errors_unmodified scripted 0
      (World.init { sampleScript with gets := [(some sampleCustom, none)] })).2.2.2
      sampleCustom [("cmmr_phase2_quickstart_go", "true")] (.other "not found") rfl rfl rfl⟩

/-- C6: when the iterator hands out the records `ops` and then the sentinel
`Done`, `listInstanceConfigOperations` (with fuel for one call of `Next` per
record and one more) returns nil, has called `Next` once per record and once
for the sentinel, and has written exactly one line per record, in iterator
order; for no records it has written nothing. -/
theorem listInstanceConfigOperations_drains {σ : Type} (x : External σ) (fuel : Nat)
    (w : World σ) (ops : List Operation)
    (hiter : IterYields x ops (x.ListInstanceConfigOperations listRequest w.remote))
    (hfuel : ops.length < fuel) :
    (listInstanceConfigOperations x fuel w).1 = .ret none ∧
    (listInstanceConfigOperations x fuel w).2.out = w.out ++ ops.map operationLine ∧
    (∃ last, (listInstanceConfigOperations x fuel w).2.trace =
      w.trace ++ Call.ListInstanceConfigOperations listRequest ::
        (ops.map (fun op => Call.Next (some op) none) ++ [Call.Next last (some .Done)])) ∧
    (ops = [] → (listInstanceConfigOperations x fuel w).2.out = w.out) := by
  obtain ⟨s, last, heq⟩ := listLoop_yields x ops fuel
    (w.record (x.ListInstanceConfigOperations listRequest w.remote)
      (.ListInstanceConfigOperations listRequest)) hiter hfuel
  have hrun : listInstanceConfigOperations x fuel w =
      (.ret none, w.after s (Call.ListInstanceConfigOperations listRequest ::
        (ops.map (fun op => Call.Next (some op) none) ++ [Call.Next last (some .Done)]))
        (ops.map operationLine)) := by
    simp only [listInstanceConfigOperations]
    rw [heq, World.record_eq, World.after_after]
    rfl
  rw [hrun]
  refine ⟨rfl, rfl, ⟨last, rfl⟩, ?_⟩
  rintro rfl
  simp [World.after]

theorem listInstanceConfigOperations_drains_witness :
    IterYields scripted
      [{ Name := "operations/a", Done := true }, { Name := "operations/b", Done := false }]
      (scripted.ListInstanceConfigOperations listRequest (World.init sampleScript).remote) ∧
    (listInstanceConfigOperations scripted 3 (World.init sampleScript)).1 = .ret none ∧
    (listInstanceConfigOperations scripted 3 (World.init sampleScript)).2.out =
      ["Instance config operation for [operations/a] has status [true]\n",
       "Instance config operation for [operations/b] has status [false]\n"] :=
  ⟨⟨rfl, rfl, rfl⟩,
   (listInstanceConfigOperations_drains scripted 3 (World.init sampleScript)
      [{ Name := "operations/a", Done := true }, { Name := "operations/b", Done := false }]
      ⟨rfl, rfl, rfl⟩ (by decide)).1,
   (listInstanceConfigOperations_drains scripted 3 (World.init sampleScript)
      [{ Name := "operations/a", Done := true }, { Name := "operations/b", Done := false }]
      ⟨rfl, rfl, rfl⟩ (by decide)).2.1⟩

/-- C9: `listInstanceConfigOperations` never returns a non-nil error, so `run`
adds nothing to what it did; when the iterator hands out the records `ops`
and then fails with an error other than `Done`, the function has written
exactly the lines of those records and panics with that error, and `run`
passes the panic on without writing a failure line. -/
theorem listInstanceConfigOperations_error_is_fatal {σ : Type} (x : External σ) (fuel : Nat)
    (w : World σ) :
    (∀ e, (listInstanceConfigOperations x fuel w).1 ≠ .ret (some e)) ∧
    run x fuel "list_instance_config_operations" w = listInstanceConfigOperations x fuel w ∧
    (∀ ops e, e ≠ .Done →
      IterFails x e ops (x.ListInstanceConfigOperations listRequest w.remote) →
      ops.length < fuel →
      (listInstanceConfigOperations x fuel w).1 = .panic (.error e) ∧
      (listInstanceConfigOperations x fuel w).2.out = w.out ++ ops.map operationLine ∧
      (run x fuel "list_instance_config_operations" w).1 = .panic (.error e) ∧
      (run x fuel "list_instance_config_operations" w).2.out =
        w.out ++ ops.map operationLine) := by
  have hnever : ∀ e, (listInstanceConfigOperations x fuel w).1 ≠ .ret (some e) := by
    intro e
    obtain ⟨o, s, calls, lines, heq, ho⟩ := listInstanceConfigOperations_spec x fuel w
    rw [heq]
    rcases ho with rfl | ⟨_, rfl⟩ | rfl <;> simp
  have hrun : run x fuel "list_instance_config_operations" w =
      listInstanceConfigOperations x fuel w := by
    simp only [run, lookup_commands_list]
    rcases hres : listInstanceConfigOperations x fuel w with ⟨o, w1⟩
    cases o with
    | ret a =>
      cases a with
      | none => rfl
      | some e => exact absurd (by rw [hres]) (hnever e)
    | panic v => rfl
    | exit code => rfl
    | diverge => rfl
  refine ⟨hnever, hrun, ?_⟩
  intro ops e he hiter hfuel
  obtain ⟨s, last, heq⟩ := listLoop_fails x e he ops fuel
    (w.record (x.ListInstanceConfigOperations listRequest w.remote)
      (.ListInstanceConfigOperations listRequest)) hiter hfuel
  have hlist : listInstanceConfigOperations x fuel w =
      (.panic (.error e), w.after s (Call.ListInstanceConfigOperations listRequest ::
        (ops.map (fun op => Call.Next (some op) none) ++ [Call.Next last (some e)]))
        (ops.map operationLine)) := by
    simp only [listInstanceConfigOperations]
    rw [heq, World.record_eq, World.after_after]
    rfl
  rw [hrun, hlist]
  exact ⟨rfl, rfl, rfl, rfl⟩

theorem listInstanceConfigOperations_error_is_fatal_witness :
    IterFails scripted (.other "unavailable") [{ Name := "operations/a", Done := true }]
      (scripted.ListInstanceConfigOperations listRequest
        (World.init { sampleScript with
          nexts := [(some { Name := "operations/a", Done := true }, none),
                    (none, some (.other "unavailable"))] }).remote) ∧
    (run scripted 2 "list_instance_config_operations"
      (World.init { sampleScript with
        nexts := [(some { Name := "operations/a", Done := true }, none),
                  (none, some (.other "unavailable"))] })).1 =
      .panic (.error (.other "unavailable")) ∧
    (run scripted 2 "list_instance_config_operations"
      (World.init { sampleScript with
        nexts := [(some { Name := "operations/a", Done := true }, none),
                  (none, some (.other "unavailable"))] })).2.out =
      ["Instance config operation for [operations/a] has status [true]\n"] :=
  ⟨⟨rfl, rfl⟩,
   ((listInstanceConfigOperations_error_is_fatal scripted 2
      (World.init { sampleScript with
        nexts := [(some { Name := "operations/a", Done := true }, none),
                  (none, some (.other "unavailable"))] })).2.2
      [{ Name := "operations/a", Done := true }] (.other "unavailable") (by decide)
      ⟨rfl, rfl⟩ (by decide)).2.2.1,
   ((listInstanceConfigOperations_error_is_fatal scripted 2
      (World.init { sampleScript with
        nexts := [(some { Name := "operations/a", Done := true }, none),
                  (none, some (.other "unavailable"))] })).2.2
      [{ Name := "operations/a", Done := true }] (.other "unavailable") (by decide)
      ⟨rfl, rfl⟩ (by decide)).2.2.2⟩

/-- C4, as stated, fails in two ways. With the help flag and no positional
command, `flag.Parse()` ends the process with code 0 and not 2. When the
client cannot be constructed, a command that is not in the table gives code 1
and not 2, and a command of the table gives code 1 although the operation was
never called (no call is in the trace) and would have returned nil. -/
theorem main_exit_code_counterexample :
    flagParse ["-h"] = .help ∧
    (main scripted 1 ["-h"] (World.init sampleScript)).1 = some 0 ∧
    (main scripted 1 ["-h"] (World.init sampleScript)).1 ≠ some 2 ∧
    "bogus" ∉ commandNames ∧
    (main scripted 1 ["bogus"]
      (World.init { sampleScript with newClient := some (.other "no credentials") })).1 =
        some 1 ∧
    (main scripted 1 ["bogus"]
      (World.init { sampleScript with newClient := some (.other "no credentials") })).1 ≠
        some 2 ∧
    "delete_instance_config" ∈ commandNames ∧
    (main scripted 1 ["delete_instance_config"]
      (World.init { sampleScript with newClient := some (.other "no credentials") })).1 =
        some 1 ∧
    (main scripted 1 ["delete_instance_config"]
      (World.init { sampleScript with newClient := some (.other "no credentials") })).2.trace =
        [] ∧
    (deleteInstanceConfig scripted 1
      (World.init { sampleScript with newClient := some (.other "no credentials") })).1 =
        .ret none := by
  decide

/-- C4, amended. When `flag.Parse()` meets the help flag the usage text is
printed and the exit code is 0; on any other parse error the error and the
usage text are printed and the exit code is 2. When parsing returns, the exit
code is 2, with the usage text printed, when the positional command is
missing. With a command present, it is 1 when the client cannot be
constructed, with no call made and nothing written to the output; when the
client is constructed, it is 2 for a command that is not in the table, and
for a command of the table it is 1 exactly when the selected operation
returns a non-nil error, `run` then having appended `<cmd> failed with <err>`
to what the operation wrote and returned that same error, and it is 0 exactly
when the operation returns nil, `run` then adding nothing. -/
theorem main_exit_code {σ : Type} (x : External σ) (fuel : Nat) (osArgs : List String)
    (w0 : World σ) :
    (flagParse osArgs = .help →
      (main x fuel osArgs w0).1 = some 0 ∧
      (main x fuel osArgs w0).2.stderr = w0.stderr ++ [usageText] ∧
      (main x fuel osArgs w0).2.trace = w0.trace ∧
      (main x fuel osArgs w0).2.out = w0.out) ∧
    (∀ message, flagParse osArgs = .failure message →
      (main x fuel osArgs w0).1 = some 2 ∧
      (main x fuel osArgs w0).2.stderr = w0.stderr ++ [message ++ "\n", usageText] ∧
      (main x fuel osArgs w0).2.trace = w0.trace ∧
      (main x fuel osArgs w0).2.out = w0.out) ∧
    (flagParse osArgs = .positional [] →
      (main x fuel osArgs w0).1 = some 2 ∧
      (main x fuel osArgs w0).2.stderr = w0.stderr ++ [usageText] ∧
      (main x fuel osArgs w0).2.trace = w0.trace ∧
      (main x fuel osArgs w0).2.out = w0.out) ∧
    (osArgs = [] → (main x fuel osArgs w0).1 = some 2) ∧
    (∀ cmd rest, flagParse osArgs = .positional (cmd :: rest) →
      (∀ e, (x.NewInstanceAdminClient w0.remote).1 = some e →
        (main x fuel osArgs w0).1 = some 1 ∧
        (main x fuel osArgs w0).2.trace = w0.trace ∧
        (main x fuel osArgs w0).2.out = w0.out) ∧
      ((x.NewInstanceAdminClient w0.remote).1 = none →
        (cmd ∉ commandNames → (main x fuel osArgs w0).1 = some 2) ∧
        (cmd ∈ commandNames → ∃ cmdFn, (commands σ).lookup cmd = some cmdFn) ∧
        (∀ cmdFn, (commands σ).lookup cmd = some cmdFn →
          ((main x fuel osArgs w0).1 = some 1 ↔
            ∃ e, (cmdFn x fuel (clientWorld x w0)).1 = .ret (some e)) ∧
          ((main x fuel osArgs w0).1 = some 0 ↔
            (cmdFn x fuel (clientWorld x w0)).1 = .ret none) ∧
          (∀ e, (cmdFn x fuel (clientWorld x w0)).1 = .ret (some e) →
            run x fuel cmd (clientWorld x w0) =
              (.ret (some e),
               { (cmdFn x fuel (clientWorld x w0)).2 with
                 out := (cmdFn x fuel (clientWorld x w0)).2.out ++
                  [cmd ++ " failed with " ++ e.Error] })) ∧
          ((cmdFn x fuel (clientWorld x w0)).1 = .ret none →
            run x fuel cmd (clientWorld x w0) =
              (.ret none, (cmdFn x fuel (clientWorld x w0)).2))))) := by
  refine ⟨?_, ?_, ?_, ?_, ?_⟩
  · intro h
    simp [main, h, World.usage]
  · intro message h
    simp [main, h, World.usage]
  · intro h
    simp [main, h, World.usage]
  · rintro rfl
    rfl
  · intro cmd rest hparse
    constructor
    · intro e he
      simp [main, hparse, createClients, he]
    · intro hnew
      have hmain := main_of_command x fuel osArgs w0 cmd rest hparse hnew
      refine ⟨?_, lookup_commands_mem cmd, ?_⟩
      · intro hcmd
        rw [commandNames_eq] at hcmd
        rw [hmain]
        simp [run, lookup_commands_none cmd hcmd]
      · intro cmdFn hlook
        have hexit : ∀ code, (cmdFn x fuel (clientWorld x w0)).1 ≠ .exit code := by
          obtain ⟨o, s, calls, lines, heq, -, hexit⟩ :=
            commands_spec x fuel (clientWorld x w0) (cmd, cmdFn)
              (lookup_commands_some cmd cmdFn hlook)
          simp only at heq
          rw [heq]
          exact hexit
        rw [hmain]
        rcases hres : cmdFn x fuel (clientWorld x w0) with ⟨o, w1⟩
        rw [hres] at hexit
        cases o with
        | ret a =>
          cases a with
          | none => simp [run, hlook, hres]
          | some e => simp [run, hlook, hres, World.fprintf]
        | panic v => simp [run, hlook, hres]
        | exit code => exact absurd rfl (hexit code)
        | diverge => simp [run, hlook, hres]

theorem main_exit_code_witness :
    flagParse ["--help"] = .help ∧
    (main scripted 1 ["--help"] (World.init sampleScript)).1 = some 0 ∧
    flagParse ["-v", "delete_instance_config"] =
      .failure "flag provided but not defined: -v" ∧
    (main scripted 1 ["-v", "delete_instance_config"] (World.init sampleScript)).2.stderr =
      ["flag provided but not defined: -v\n", usageText] ∧
    (main scripted 1 ([] : List String) (World.init sampleScript)).1 = some 2 ∧
    (main scripted 1 ["delete_instance_config"]
      (World.init { sampleScript with delete := some (.other "in use") })).1 = some 1 ∧
    (main scripted 1 ["delete_instance_config"] (World.init sampleScript)).1 = some 0 :=
  ⟨rfl,
   ((main_exit_code scripted 1 ["--help"] (World.init sampleScript)).1 rfl).1,
   rfl,
   ((main_exit_code scripted 1 ["-v", "delete_instance_config"]
      (World.init sampleScript)).2.1 "flag provided but not defined: -v" rfl).2.1,
   (main_exit_code scripted 1 [] (World.init sampleScript)).2.2.2.1 rfl,
   ((((main_exit_code scripted 1 ["delete_instance_config"]
      (World.init { sampleScript with delete := some (.other "in use") })).2.2.2.2
      "delete_instance_config" [] rfl).2 rfl).2.2 deleteInstanceConfig rfl).1.2
      ⟨.other "in use", rfl⟩,
   ((((main_exit_code scripted 1 ["delete_instance_config"]
      (World.init sampleScript)).2.2.2.2
      "delete_instance_config" [] rfl).2 rfl).2.2 deleteInstanceConfig rfl).2.1.2 rfl⟩

/-- C7 fails on the two paths that leave through `os.Exit`: when the operation
fails the process ends with code 1 and when the command is unknown it ends
with code 2, in both cases with no `Close` among the calls made; only the
path on which `main` returns (and a panic) runs the deferred `Close`. -/
theorem main_exit_skips_close :
    (main scripted 1 ["delete_instance_config"]
      (World.init { sampleScript with delete := some (.other "in use") })).1 = some 1 ∧
    (main scripted 1 ["delete_instance_config"]
      (World.init { sampleScript with delete := some (.other "in use") })).2.trace =
      [Call.DeleteInstanceConfig deleteRequest (some (.other "in use"))] ∧
    (main scripted 1 ["delete_instance_config"]
      (World.init { sampleScript with delete := some (.other "in use") })).2.out =
      ["delete_instance_config failed with in use"] ∧
    (main scripted 1 ["delete_instance_config"]
      (World.init { sampleScript with delete := some (.other "in use") })).2.trace.any
        Call.isClose = false ∧
    (main scripted 1 ["bogus"] (World.init sampleScript)).1 = some 2 ∧
    (main scripted 1 ["bogus"] (World.init sampleScript)).2.trace = [] ∧
    (main scripted 1 ["bogus"] (World.init sampleScript)).2.trace.any Call.isClose = false ∧
    (main scripted 1 ["delete_instance_config"] (World.init sampleScript)).1 = some 0 ∧
    (main scripted 1 ["delete_instance_config"] (World.init sampleScript)).2.trace =
      [Call.DeleteInstanceConfig deleteRequest none, Call.Close none] ∧
    (main scripted 1 ["delete_instance_config"] (World.init sampleScript)).2.trace.any
      Call.isClose = true := by
  decide

end Quickstart
